import Mathlib

/-!
# Verification of the AI_Automated_Webscrapper extraction pipeline

A shallow embedding, in Lean 4, of the lead-extraction and contact-enrichment
pipeline of `src/utils/webScraper.ts` and of the phase-1/phase-2 orchestration
loop of `src/components/FullWebsiteScraper.tsx`.

Modelling conventions, used throughout:

* JavaScript strings are Lean `String`s (`String.data` is the character list);
  the sources only manipulate ASCII data, for which JS UTF-16 `length` and
  Lean `String.length` agree.
* A JS value that may be `undefined`/`null` is an `Option`; JS truthiness of
  an optional string (`undefined`, `null` and `""` are falsy) is `truthy`.
* Platform primitives (the WHATWG `URL` class, `DOMParser`, the regular
  expression engine, `fetch`, `Math.random`) are not part of the repository:
  `URL` is modelled concretely by `parseUrl`/`urlToString`/`setParam`
  (restricted to `scheme://host[/path][?query]` shapes, which is all the
  pipeline produces), while the results of DOM queries, of global regex
  matching, of the network and of the random generator enter as oracle data
  (function-valued fields of `CDoc`, `ListingElem`, `PageDoc`, `World`,
  `FetchEnv`, `RunEnv`).  Everything the repository's own code does with
  those results is translated statement by statement from the source.
-/

/-! ## JS string primitives -/

/-- Characters removed by JS `String.prototype.trim` (whitespace). -/
def wsChar (c : Char) : Bool := c.isWhitespace

/-- Drop leading and trailing whitespace from a character list. -/
def trimChars (cs : List Char) : List Char :=
  ((cs.dropWhile wsChar).reverse.dropWhile wsChar).reverse

/-- Model of JS `s.trim()`. -/
def jsTrim (s : String) : String := String.mk (trimChars s.data)

/-- Does `p` occur at the head of `l`? -/
def startsWithL : List Char → List Char → Bool
  | [], _ => true
  | _ :: _, [] => false
  | p :: ps, c :: cs => p = c && startsWithL ps cs

/-- Does `pat` occur anywhere in the list?  Models JS `String.prototype.includes`. -/
def containsSubL (pat : List Char) : List Char → Bool
  | [] => startsWithL pat []
  | c :: cs => startsWithL pat (c :: cs) || containsSubL pat cs

/-- Model of JS `s.includes(pat)`. -/
def containsSub (pat s : String) : Bool := containsSubL pat.data s.data

/-- Remove the first occurrence of `pat` (if any): the character-list core of
JS `s.replace(pat, "")` with a plain-string pattern. -/
def removeFirstL (pat : List Char) : List Char → List Char
  | [] => []
  | c :: cs =>
    if startsWithL pat (c :: cs) then (c :: cs).drop pat.length
    else c :: removeFirstL pat cs

/-- Model of JS `s.replace(pat, "")` for a plain-string `pat`. -/
def removeFirst (pat s : String) : String := String.mk (removeFirstL pat.data s.data)

/-- Model of JS `s.toLowerCase()` on ASCII data. -/
def jsToLower (s : String) : String := String.mk (s.data.map Char.toLower)

/-- Number of decimal digits in a string: the length of
`s.replace(/[^\d]/g, "")`. -/
def digitCount (s : String) : Nat := (s.data.filter Char.isDigit).length

/-- JS `a || b` on two optional strings: `a` unless it is absent or empty. -/
def jsOr (a b : Option String) : Option String :=
  match a with
  | some s => if s = "" then b else some s
  | none => b

/-- JS truthiness of an optional string (`undefined`/`null`/`""` are falsy). -/
def truthy : Option String → Bool
  | some s => s ≠ ""
  | none => false

/-! ## Validators of `webScraper.ts` (lines 348-369)

`isValidEmail` tests the anchored regular expression
`^[A-Za-z0-9._%+-]+@[A-Za-z0-9.-]+\.[A-Z|a-z]\x7b2,\x7d$` (note that the
final character class of the source literally contains the bar) and the
length bound; the regex is encoded as the existence of a split
`local ++ "@" ++ dom ++ "." ++ tld`, which is equivalent to matchability
of that pattern because none of its classes contains `@`. -/

/-- The class `[A-Za-z0-9._%+-]` of the local part. -/
def emailLocalChar (c : Char) : Bool :=
  c.isAlpha || c.isDigit || c = '.' || c = '_' || c = '%' || c = '+' || c = '-'

/-- The class `[A-Za-z0-9.-]` of the domain part. -/
def emailDomChar (c : Char) : Bool := c.isAlpha || c.isDigit || c = '.' || c = '-'

/-- The class `[A-Z|a-z]` of the top-level-domain part (with the literal bar). -/
def emailTldChar (c : Char) : Bool := c.isAlpha || c = '|'

/-- Can `l` be split as `dom2 ++ "." ++ tld` with `dom2` a (possibly empty)
run of domain characters and `tld` at least two tld characters? -/
def emailDomTail : List Char → Bool
  | [] => false
  | c :: cs =>
    (c = '.' && decide (cs.length ≥ 2) && cs.all emailTldChar) ||
    (emailDomChar c && emailDomTail cs)

/-- Full-string match of the email regex of `isValidEmail`. -/
def emailGrammar (s : String) : Bool :=
  let loc := s.data.takeWhile (fun c => c ≠ '@')
  let rest := s.data.dropWhile (fun c => c ≠ '@')
  match rest with
  | '@' :: dom =>
    (!loc.isEmpty) && loc.all emailLocalChar &&
    (match dom with
     | [] => false
     | c :: cs => emailDomChar c && emailDomTail cs)
  | _ => false

/-- `isValidEmail` of `webScraper.ts` (line 349). -/
def isValidEmail (email : String) : Bool :=
  emailGrammar email && email.length < 100

/-- The denylist of `isGenericEmail` (line 355). -/
def genericPatterns : List String :=
  ["noreply", "no-reply", "donotreply", "admin@", "test@",
   "example@", "demo@", "support@example", "@example.com"]

/-- `isGenericEmail` of `webScraper.ts` (line 354). -/
def isGenericEmail (email : String) : Bool :=
  genericPatterns.any (fun pat => containsSub pat (jsToLower email))

/-- `isValidPhone` of `webScraper.ts` (line 362): after deleting every
non-digit, between 7 and 15 digits remain. -/
def isValidPhone (phone : String) : Bool :=
  let cleaned := phone.data.filter Char.isDigit
  decide (cleaned.length ≥ 7) && decide (cleaned.length ≤ 15)

/-- The class kept by `cleanPhone`: digits, `+`, `-`, `(`, `)`, whitespace. -/
def phoneKeepChar (c : Char) : Bool :=
  c.isDigit || c = '+' || c = '-' || c = '(' || c = ')' || c.isWhitespace

/-- `cleanPhone` of `webScraper.ts` (line 367). -/
def cleanPhone (phone : String) : String :=
  jsTrim (String.mk (phone.data.filter phoneKeepChar))

/-- The class `[a-zA-Z\s\.]` of the contact-person name check (line 302). -/
def nameChar (c : Char) : Bool := c.isAlpha || c.isWhitespace || c = '.'

/-- The contact-person acceptance test of `extractContactDetails` (line 302):
length in (2,50) and a full match of `^[a-zA-Z\s\.]+$`. -/
def validContactName (name : String) : Bool :=
  decide (name.length > 2) && decide (name.length < 50) &&
  (!name.data.isEmpty) && name.data.all nameChar

/-- The character class of the listing-page loose phone pattern
`[\d\s\-\(\)]`. -/
def phoneClassChar (c : Char) : Bool :=
  c.isDigit || c.isWhitespace || c = '-' || c = '(' || c = ')'

/-- Full-string match of the loose listing-page phone pattern: an optional
leading `+` followed by at least ten characters of `phoneClassChar`.  Any
string the platform regex engine can return as a match for that pattern
satisfies this predicate. -/
def phoneLooseFull (s : String) : Bool :=
  match s.data with
  | '+' :: rest => decide (rest.length ≥ 10) && rest.all phoneClassChar
  | l => decide (l.length ≥ 10) && l.all phoneClassChar

/-! ## The WHATWG `URL` platform model

`generatePageUrl` (lines 54-70), `tryContactPage` (line 325),
`extractExternalLink` (line 421) and `generateMockWebsiteContent` (line 484)
use the platform `URL` class.  It is modelled here for URLs of the shape
`scheme://host[/path][?query]` (no fragments, credentials or escaping - all
URLs the pipeline builds are of this shape): parsing is `parseUrl` (`none`
models the constructor throwing), serialisation is `urlToString` (an absent
path serialises as `/`, as WHATWG does), and `searchParams.set` is
`setParam` (replace the first pair with that name in place, delete the other
pairs with that name; append when the name is absent). -/

structure Url where
  scheme : String
  host : String
  path : String
  query : List (String × String)
deriving DecidableEq

/-- Characters allowed in a scheme after its leading letter. -/
def schemeChar (c : Char) : Bool := c.isAlpha || c.isDigit || c = '+' || c = '-' || c = '.'

def validScheme (cs : List Char) : Bool :=
  match cs with
  | [] => false
  | c :: rest => c.isAlpha && rest.all schemeChar

/-- Characters allowed in a host (with optional port). -/
def hostChar (c : Char) : Bool :=
  c ≠ '/' && c ≠ '?' && c ≠ '#' && !c.isWhitespace

/-- Split `l` at the first occurrence of `pat`: `some (before, after)`. -/
def splitFirstSub (pat : List Char) : List Char → Option (List Char × List Char)
  | [] => if pat.isEmpty then some ([], []) else none
  | c :: cs =>
    if startsWithL pat (c :: cs) then some ([], (c :: cs).drop pat.length)
    else
      match splitFirstSub pat cs with
      | some (pre, post) => some (c :: pre, post)
      | none => none

/-- One `name=value` piece of a query string (value empty when `=` is absent;
the name stops at the first `=`). -/
def parsePair (piece : List Char) : String × String :=
  let name := piece.takeWhile (fun c => c ≠ '=')
  let rest := piece.dropWhile (fun c => c ≠ '=')
  match rest with
  | '=' :: v => (String.mk name, String.mk v)
  | _ => (String.mk piece, "")

/-- Parse a query string: split on `&`, drop empty pieces. -/
def parseQuery (cs : List Char) : List (String × String) :=
  ((cs.splitOn '&').filter (fun p => !p.isEmpty)).map parsePair

/-- Model of `new URL(s)`: `none` models the constructor throwing. -/
def parseUrl (s : String) : Option Url :=
  match splitFirstSub "://".data s.data with
  | none => none
  | some (schemeCs, rest) =>
    if validScheme schemeCs then
      let hostCs := rest.takeWhile (fun c => c ≠ '/' && c ≠ '?')
      let rest2 := rest.drop hostCs.length
      if hostCs.isEmpty || !hostCs.all hostChar then none
      else
        let pathCs := rest2.takeWhile (fun c => c ≠ '?')
        let qtail := rest2.drop pathCs.length
        let query :=
          match qtail with
          | '?' :: qs => parseQuery qs
          | _ => []
        some ⟨String.mk schemeCs, String.mk hostCs, String.mk pathCs, query⟩
    else none

def queryToString (q : List (String × String)) : String :=
  String.intercalate "&" (q.map (fun pr => pr.1 ++ "=" ++ pr.2))

/-- Model of `url.toString()`. -/
def urlToString (u : Url) : String :=
  u.scheme ++ "://" ++ u.host ++ (if u.path = "" then "/" else u.path) ++
    (if u.query.isEmpty then "" else "?" ++ queryToString u.query)

/-- `searchParams.set` when a pair with the name already exists: replace the
first such pair in place (`replaced = false`), delete the rest. -/
def setParamAux (name val : String) : List (String × String) → Bool → List (String × String)
  | [], _ => []
  | pr :: rest, replaced =>
    if pr.1 = name then
      if replaced then setParamAux name val rest true
      else (name, val) :: setParamAux name val rest true
    else pr :: setParamAux name val rest replaced

/-- Model of `url.searchParams.set(name, val)`. -/
def setParam (q : List (String × String)) (name val : String) : List (String × String) :=
  if q.any (fun pr => pr.1 = name) then setParamAux name val q false
  else q ++ [(name, val)]

/-- First value bound to `name` (as `searchParams.get`). -/
def lookupParam (name : String) : List (String × String) → Option String
  | [] => none
  | pr :: rest => if pr.1 = name then some pr.2 else lookupParam name rest

/-- Resolution of a path-absolute reference against a base URL: models
`new URL(path, base).href` for the `/...` contact-page suffixes
(`none` models the constructor throwing on an unparseable base). -/
def resolveUrl (path base : String) : Option String :=
  (parseUrl base).map (fun u => u.scheme ++ "://" ++ u.host ++ path)

/-! ## `ScrapingConfig` and `generatePageUrl` (lines 1-70) -/

/-- The fields of `ScrapingConfig` the embedded functions consult:
`baseUrl`, `pagination.itemsPerPage`, and the per-field selector lists
(an absent optional list is `none`, defaulted to `[]` at use sites as the
source's `|| []` does). -/
structure ScrapingConfigM where
  baseUrl : String
  itemsPerPage : Nat
  companyNameSel : List String
  profileLinkSel : List String
  externalWebsiteSel : Option (List String)
  industrySel : Option (List String)
  locationSel : Option (List String)

/-- `generatePageUrl` (lines 54-70): pick the pagination parameter by
substring inspection of the base URL (`start=`, then `page=`, then
`offset=`, defaulting to `start`), set it via `searchParams.set`, and
serialise.  `none` models `new URL(baseUrl)` throwing.  `page` is the
1-based page number. -/
def generatePageUrl (cfg : ScrapingConfigM) (page : Nat) : Option String :=
  match parseUrl cfg.baseUrl with
  | none => none
  | some u =>
    let q :=
      if containsSub "start=" cfg.baseUrl then
        setParam u.query "start" (toString ((page - 1) * cfg.itemsPerPage))
      else if containsSub "page=" cfg.baseUrl then
        setParam u.query "page" (toString page)
      else if containsSub "offset=" cfg.baseUrl then
        setParam u.query "offset" (toString ((page - 1) * cfg.itemsPerPage))
      else
        setParam u.query "start" (toString ((page - 1) * cfg.itemsPerPage))
    some (urlToString { u with query := q })

/-! ## The DOM model for contact extraction

`extractContactDetails` (lines 200-310) reads a parsed document through
`querySelector` (giving an element's `href` attribute and `textContent`) and
through global regex matching over `document.body.textContent`.  The
platform pieces enter as oracle data: `query` is the `querySelector` table,
and `emailMatches`/`phoneMatches` are the per-pattern result arrays of the
platform regex engine for the two email patterns (line 209) and the three
phone patterns (line 257) - a `null` result is the empty list, which the
source's loops treat identically. -/

structure DomElem where
  href : Option String
  text : Option String
deriving DecidableEq

structure CDoc where
  query : String → Option DomElem
  emailMatches : List (List String)
  phoneMatches : List (List String)

/-- The result record of `extractContactDetails`. -/
structure ContactInfo where
  email : Option String
  phone : Option String
  contactPerson : Option String
  contactPageUrl : Option String
deriving DecidableEq

/-- The structured email selectors (lines 214-218). -/
def emailSelectors : List String :=
  ["a[href^=\"mailto:\"]", ".email", ".contact-email", ".email-address",
   "[data-email]", ".contact-info .email"]

/-- The candidate email of one element (line 224):
`el.getAttribute('href')?.replace('mailto:', '') || el.textContent?.trim()`. -/
def elemEmailCand (el : DomElem) : Option String :=
  jsOr (el.href.map (fun h => removeFirst "mailto:" h)) (el.text.map jsTrim)

/-- The structured-selector email pass (lines 221-230): first selector whose
element yields a nonempty candidate passing `isValidEmail`. -/
def structEmail (q : String → Option DomElem) : List String → Option String
  | [] => none
  | s :: rest =>
    match q s with
    | none => structEmail q rest
    | some el =>
      match elemEmailCand el with
      | some e => if e ≠ "" && isValidEmail e then some e else structEmail q rest
      | none => structEmail q rest

/-- The inner loop of the text-scan email fallback (lines 238-244): the first
match that, after removing a `mailto:` prefix occurrence, is valid and not
generic. -/
def firstValidScanEmail : List String → Option String
  | [] => none
  | m :: ms =>
    if isValidEmail (removeFirst "mailto:" m) && !isGenericEmail (removeFirst "mailto:" m) then
      some (removeFirst "mailto:" m)
    else firstValidScanEmail ms

/-- The text-scan email fallback over the per-pattern match lists
(lines 233-248). -/
def textScanEmail : List (List String) → Option String
  | [] => none
  | ms :: rest =>
    match firstValidScanEmail ms with
    | some e => some e
    | none => textScanEmail rest

/-- The structured phone selectors (lines 251-255). -/
def phoneSelectors : List String :=
  ["a[href^=\"tel:\"]", ".phone", ".telephone", ".contact-phone",
   ".phone-number", "[data-phone]", ".contact-info .phone"]

/-- The candidate phone of one element (line 267). -/
def elemPhoneCand (el : DomElem) : Option String :=
  jsOr (el.href.map (fun h => removeFirst "tel:" h)) (el.text.map jsTrim)

/-- The structured-selector phone pass (lines 264-273): the accepted value is
stored cleaned. -/
def structPhone (q : String → Option DomElem) : List String → Option String
  | [] => none
  | s :: rest =>
    match q s with
    | none => structPhone q rest
    | some el =>
      match elemPhoneCand el with
      | some p => if p ≠ "" && isValidPhone p then some (cleanPhone p) else structPhone q rest
      | none => structPhone q rest

/-- The inner loop of the text-scan phone fallback (lines 281-287). -/
def firstValidScanPhone : List String → Option String
  | [] => none
  | m :: ms => if isValidPhone m then some (cleanPhone m) else firstValidScanPhone ms

/-- The text-scan phone fallback over the per-pattern match lists
(lines 276-290). -/
def textScanPhone : List (List String) → Option String
  | [] => none
  | ms :: rest =>
    match firstValidScanPhone ms with
    | some p => some p
    | none => textScanPhone rest

/-- The contact-person selectors (lines 293-296). -/
def contactPersonSelectors : List String :=
  [".contact-person", ".contact-name", ".manager", ".director",
   ".ceo", ".founder", ".contact .name", ".team .name"]

/-- The contact-person pass (lines 298-307). -/
def structPerson (q : String → Option DomElem) : List String → Option String
  | [] => none
  | s :: rest =>
    match q s with
    | none => structPerson q rest
    | some el =>
      match el.text with
      | none => structPerson q rest
      | some t =>
        if jsTrim t ≠ "" then
          if validContactName (jsTrim t) then some (jsTrim t) else structPerson q rest
        else structPerson q rest

/-- `extractContactDetails` (lines 200-310).  The source's `baseUrl`
parameter is unused there and is dropped here; note that the function never
assigns `result.contactPageUrl`. -/
def extractContactDetails (doc : CDoc) : ContactInfo :=
  { email :=
      match structEmail doc.query emailSelectors with
      | some e => some e
      | none => textScanEmail doc.emailMatches,
    phone :=
      match structPhone doc.query phoneSelectors with
      | some p => some p
      | none => textScanPhone doc.phoneMatches,
    contactPerson := structPerson doc.query contactPersonSelectors,
    contactPageUrl := none }

/-! ## `ExtractedCompany`, the enrichment world, and `performDeepExtraction` -/

inductive DeepStatus
  | pending
  | completed
  | failed
deriving DecidableEq

/-- The `ExtractedCompany` record (lines 31-43). -/
structure ExtractedCompany where
  companyName : String
  profileLink : Option String
  externalWebsite : Option String
  industry : Option String
  location : Option String
  contactPerson : Option String
  email : Option String
  phone : Option String
  extractedFrom : String
  deepExtractionStatus : Option DeepStatus
  contactPageUrl : Option String
deriving DecidableEq

/-- The platform world the enricher runs in: `fetch` is the outcome of
`fetchPageContent` for a URL (`none` models that call throwing) and `parse`
is `DOMParser.parseFromString` (which never throws). -/
structure World where
  fetch : String → Option String
  parse : String → CDoc

/-- The contact-page path suffixes of `tryContactPage` (lines 318-321). -/
def contactPagePatterns : List String :=
  ["/contact", "/contact-us", "/contacts", "/about/contact",
   "/get-in-touch", "/reach-us", "/contact-info"]

def emptyContactInfo : ContactInfo := ⟨none, none, none, none⟩

/-- `tryContactPage` (lines 313-346), instrumented with the list of URLs it
attempted to fetch: resolve each suffix against the site URL, fetch it,
parse and extract, and return the first extraction yielding a truthy email
or phone; any per-suffix fault (URL resolution or fetch throwing) is
swallowed and the loop continues.  Returns the full `ContactInfo` of the
winning page (whose `contactPageUrl` field `extractContactDetails` never
sets), or an empty record. -/
def tryContactPageT (w : World) (baseUrl : String) : List String → ContactInfo × List String
  | [] => (emptyContactInfo, [])
  | pat :: rest =>
    match resolveUrl pat baseUrl with
    | none => tryContactPageT w baseUrl rest
    | some curl =>
      match w.fetch curl with
      | none =>
        ((tryContactPageT w baseUrl rest).1, curl :: (tryContactPageT w baseUrl rest).2)
      | some content =>
        if content = "" then
          ((tryContactPageT w baseUrl rest).1, curl :: (tryContactPageT w baseUrl rest).2)
        else
          if truthy (extractContactDetails (w.parse content)).email ||
              truthy (extractContactDetails (w.parse content)).phone then
            (extractContactDetails (w.parse content), [curl])
          else
            ((tryContactPageT w baseUrl rest).1, curl :: (tryContactPageT w baseUrl rest).2)

/-- The main-page merge (lines 175-178): each contact field is taken from the
extraction only when truthy there and not already truthy on the company;
`contactPageUrl` is overwritten whenever truthy.  The four source `if`s read
disjoint fields, so they are rendered as one simultaneous update. -/
def mergeMainInfo (c : ExtractedCompany) (i : ContactInfo) : ExtractedCompany :=
  { c with
    email := if truthy i.email && !truthy c.email then i.email else c.email,
    phone := if truthy i.phone && !truthy c.phone then i.phone else c.phone,
    contactPerson :=
      if truthy i.contactPerson && !truthy c.contactPerson then i.contactPerson
      else c.contactPerson,
    contactPageUrl := if truthy i.contactPageUrl then i.contactPageUrl else c.contactPageUrl }

/-- The contact-page merge (lines 183-185): each field is overwritten
whenever truthy in the contact-page result - with no already-populated
guard. -/
def mergeContactPageInfo (c : ExtractedCompany) (i : ContactInfo) : ExtractedCompany :=
  { c with
    email := if truthy i.email then i.email else c.email,
    phone := if truthy i.phone then i.phone else c.phone,
    contactPerson := if truthy i.contactPerson then i.contactPerson else c.contactPerson }

/-- `performDeepExtraction` (lines 151-197), instrumented with the list of
URLs whose fetch was attempted.  A missing or empty `externalWebsite`, a
throwing fetch (caught by the outer handler) or an empty fetched payload
sets status `failed`; otherwise the main page is extracted and merged, the
contact-page probe runs when neither email nor phone is truthy after the
merge, and status is `completed`. -/
def performDeepExtractionT (w : World) (c : ExtractedCompany) : ExtractedCompany × List String :=
  match c.externalWebsite with
  | none => ({ c with deepExtractionStatus := some DeepStatus.failed }, [])
  | some site =>
    if site = "" then ({ c with deepExtractionStatus := some DeepStatus.failed }, [])
    else
      match w.fetch site with
      | none => ({ c with deepExtractionStatus := some DeepStatus.failed }, [site])
      | some content =>
        if content = "" then
          ({ c with deepExtractionStatus := some DeepStatus.failed }, [site])
        else
          if !truthy (mergeMainInfo c (extractContactDetails (w.parse content))).email &&
              !truthy (mergeMainInfo c (extractContactDetails (w.parse content))).phone then
            ({ mergeContactPageInfo (mergeMainInfo c (extractContactDetails (w.parse content)))
                  (tryContactPageT w site contactPagePatterns).1 with
                deepExtractionStatus := some DeepStatus.completed },
             site :: (tryContactPageT w site contactPagePatterns).2)
          else
            ({ mergeMainInfo c (extractContactDetails (w.parse content)) with
                deepExtractionStatus := some DeepStatus.completed }, [site])

/-- `performDeepExtraction` as the caller sees it (the returned company). -/
def performDeepExtraction (w : World) (c : ExtractedCompany) : ExtractedCompany :=
  (performDeepExtractionT w c).1

/-! ## `fetchPageContent` and `generateMockWebsiteContent` (lines 438-534)

`fetchPageContent` tries three relay services in order; every way an attempt
can fail (network fault, non-ok response, unparseable body, missing or empty
`contents` field) collapses into the oracle `proxyContents i url` being
`none` or the empty string (the source checks `data.contents` for
truthiness).  On exhaustion the thrown error is caught at once and the mock
generator runs; `new URL(url)` inside the generator throws for an
unparseable URL, and that exception propagates to the caller (`none`).
`Math.floor(Math.random() * len)` is the oracle index `rand % len`. -/

structure FetchEnv where
  proxyContents : Nat → String → Option String
  randE : Nat
  randP : Nat
  randN : Nat

def mockEmails (domain : String) : List String :=
  ["info@" ++ domain, "contact@" ++ domain, "sales@" ++ domain, "hello@" ++ domain]

def mockPhones : List String :=
  ["+44 20 7123 4567", "+1 555 123 4567", "+44 161 234 5678", "+44 117 987 6543"]

def mockNames : List String :=
  ["John Smith", "Sarah Johnson", "Michael Brown", "Emma Wilson",
   "David Jones", "Lisa Davis", "Robert Taylor", "Jennifer Miller"]

/-- The template literal of `generateMockWebsiteContent` (lines 510-533). -/
def mockHtml (companyName email phone person : String) : String :=
  "\n      <html>\n        <head><title>" ++ companyName ++
  "</title></head>\n        <body>\n          <header>\n            <h1>" ++
  companyName ++
  "</h1>\n          </header>\n          <main>\n            <section class=\"contact-info\">\n              <h2>Contact Us</h2>\n              <div class=\"contact-details\">\n                <p class=\"contact-person\">Contact: " ++
  person ++
  "</p>\n                <p class=\"email\">Email: <a href=\"mailto:" ++
  email ++ "\">" ++ email ++
  "</a></p>\n                <p class=\"phone\">Phone: <a href=\"tel:" ++
  phone ++ "\">" ++ phone ++
  "</a></p>\n              </div>\n            </section>\n            <section class=\"about\">\n              <h2>About Us</h2>\n              <p>Welcome to " ++
  companyName ++
  ". We are a leading company in our industry.</p>\n            </section>\n          </main>\n        </body>\n      </html>\n    "

/-- `generateMockWebsiteContent` (lines 483-534): `none` models
`new URL(url)` throwing. -/
def generateMockWebsiteContent (env : FetchEnv) (url : String) : Option String :=
  match parseUrl url with
  | none => none
  | some u =>
    let domain := removeFirst "www." u.host
    let companyName := String.mk (domain.data.takeWhile (fun c => c ≠ '.'))
    let email := (mockEmails domain).getD (env.randE % 4) ""
    let phone := mockPhones.getD (env.randP % 4) ""
    let person := mockNames.getD (env.randN % 8) ""
    some (mockHtml companyName email phone person)

/-- The relay loop of `fetchPageContent` (lines 450-471): first attempt whose
`contents` field is truthy. -/
def tryProxies (env : FetchEnv) (url : String) : List Nat → Option String
  | [] => none
  | i :: rest =>
    match env.proxyContents i url with
    | some c => if c = "" then tryProxies env url rest else some c
    | none => tryProxies env url rest

/-- `fetchPageContent` (lines 439-480): the three relays in order, then the
mock fallback.  `none` models the call throwing (which happens exactly when
every relay fails and the URL is unparseable). -/
def fetchPageContent (env : FetchEnv) (url : String) : Option String :=
  match tryProxies env url [0, 1, 2] with
  | some c => some c
  | none => generateMockWebsiteContent env url

/-! ## The listing-page field extractor (lines 73-148 and 371-436)

The DOM of one candidate listing container enters as oracle data:
`queryText sel` is `container.querySelector(sel)?.textContent`,
`queryHref sel` is the `href` of the first match of `sel` (absent element or
absent attribute collapse to `none`), `links` are the `href`s of
`querySelectorAll('a[href]')` in order, and `emailMatch`/`phoneMatch` are
the first matches of the listing-page email and loose phone regexes over
`container.textContent` (line 132 and line 135). -/

structure ListingElem where
  queryText : String → Option String
  queryHref : String → Option String
  links : List String
  emailMatch : Option String
  phoneMatch : Option String

/-- `extractTextFromSelectors` (lines 398-406): first selector whose element
has nonempty trimmed text; the returned value is trimmed. -/
def extractTextFromSelectors (e : ListingElem) : List String → Option String
  | [] => none
  | s :: rest =>
    match e.queryText s with
    | some t => if jsTrim t ≠ "" then some (jsTrim t) else extractTextFromSelectors e rest
    | none => extractTextFromSelectors e rest

/-- `extractLinkFromSelectors` (lines 409-417): first selector whose element
has a truthy `href`. -/
def extractLinkFromSelectors (e : ListingElem) : List String → Option String
  | [] => none
  | s :: rest =>
    match e.queryHref s with
    | some h => if h ≠ "" then some h else extractLinkFromSelectors e rest
    | none => extractLinkFromSelectors e rest

/-- `linkUrl.protocol.startsWith('http')` of line 427 (`protocol` is the
scheme followed by a colon). -/
def schemeStartsHttp (u : Url) : Bool :=
  startsWithL "http".data (u.scheme ++ ":").data

/-- `extractExternalLink` (lines 420-436) after the host of the current page
has been resolved: the first link parsing to a URL whose host differs and
whose protocol starts with `http`; an unparseable link is skipped. -/
def extractExternalLink (currentHost : String) : List String → Option String
  | [] => none
  | l :: rest =>
    match parseUrl l with
    | none => extractExternalLink currentHost rest
    | some lu =>
      if lu.host ≠ currentHost && schemeStartsHttp lu then some l
      else extractExternalLink currentHost rest

/-- The container selector cascade (lines 79-83). -/
def containerSelectors : List String :=
  [".company-listing", ".business-card", ".company-item", ".listing-item",
   ".directory-item", ".company-profile", ".member-listing", ".search-result",
   "[data-company]", ".company", ".business", ".member"]

/-- The built-in fallback selector lists of lines 111, 116, 124, 128. -/
def fallbackNameSel : List String := ["h3", "h2", ".title", ".name", ".company-name"]

def fallbackProfileSel : List String :=
  ["a[href*=\"profile\"]", "a[href*=\"company\"]", "a"]

def fallbackIndustrySel : List String := [".industry", ".sector", ".category"]

def fallbackLocationSel : List String := [".location", ".address", ".city", ".region"]

/-- The company-name cascade of lines 110-112: profile selectors, built-in
fallback selectors, then the numbered placeholder. -/
def extractCompanyName (cfg : ScrapingConfigM) (idx : Nat) (e : ListingElem) : String :=
  match jsOr (extractTextFromSelectors e cfg.companyNameSel)
             (extractTextFromSelectors e fallbackNameSel) with
  | some n => n
  | none => "Company " ++ toString (idx + 1)

/-- The website resolution of lines 119-120: selector lookup first, then
the external-link scan.  The outer `none` models the per-element `catch`:
the only throwing step is `new URL(pageUrl)` inside `extractExternalLink`,
reached only when the selector lookup found nothing. -/
def extractCompanyWebsite (cfg : ScrapingConfigM) (pageUrl : String)
    (e : ListingElem) : Option (Option String) :=
  match extractLinkFromSelectors e (cfg.externalWebsiteSel.getD []) with
  | some l => some (some l)
  | none =>
    match parseUrl pageUrl with
    | none => none
    | some pu => some (extractExternalLink pu.host e.links)

/-- The per-container body of `extractCompaniesFromHTML` (lines 100-145).
A company whose name is empty after trimming is not pushed (line 139). -/
def extractCompanyFromElement (cfg : ScrapingConfigM) (pageUrl : String) (idx : Nat)
    (e : ListingElem) : Option ExtractedCompany :=
  match extractCompanyWebsite cfg pageUrl e with
  | none => none
  | some extWeb =>
    if jsTrim (extractCompanyName cfg idx e) ≠ "" then
      some { companyName := extractCompanyName cfg idx e,
             profileLink := jsOr (extractLinkFromSelectors e cfg.profileLinkSel)
                                 (extractLinkFromSelectors e fallbackProfileSel),
             externalWebsite := extWeb,
             industry := jsOr (extractTextFromSelectors e (cfg.industrySel.getD []))
                              (extractTextFromSelectors e fallbackIndustrySel),
             location := jsOr (extractTextFromSelectors e (cfg.locationSel.getD []))
                              (extractTextFromSelectors e fallbackLocationSel),
             contactPerson := none,
             email := e.emailMatch, phone := e.phoneMatch.map jsTrim,
             extractedFrom := pageUrl, deepExtractionStatus := some DeepStatus.pending,
             contactPageUrl := none }
    else none

/-- The parsed listing page: `containers sel` is `querySelectorAll(sel)` over
container selectors, `headingTexts sel` the `textContent`s of
`querySelectorAll(sel)` for the heading-scan fallback. -/
structure PageDoc where
  containers : String → List ListingElem
  headingTexts : String → List (Option String)

/-- The container cascade (lines 85-90): first selector matching at least one
element. -/
def firstContainers (doc : PageDoc) : List String → List ListingElem
  | [] => []
  | s :: rest =>
    match doc.containers s with
    | [] => firstContainers doc rest
    | es => es

/-- The heading-scan selector list of `extractIndividualElements`
(line 376). -/
def headingNameSelectors : List String :=
  ["h3", "h2", ".company-name", ".business-name", ".title", ".name"]

/-- The per-selector body of `extractIndividualElements` (lines 380-389):
keep elements whose trimmed text has length in (2,100). -/
def indFromTexts (pageUrl : String) (ts : List (Option String)) : List ExtractedCompany :=
  ts.filterMap (fun ot =>
    match ot with
    | none => none
    | some t =>
      if jsTrim t ≠ "" && decide ((jsTrim t).length > 2) && decide ((jsTrim t).length < 100) then
        some { companyName := jsTrim t, profileLink := none, externalWebsite := none,
               industry := none, location := none, contactPerson := none,
               email := none, phone := none, extractedFrom := pageUrl,
               deepExtractionStatus := some DeepStatus.pending, contactPageUrl := none }
      else none)

/-- The selector loop of `extractIndividualElements` (lines 378-392): stop at
the first selector producing at least one company. -/
def extractIndAux (doc : PageDoc) (pageUrl : String) : List String → List ExtractedCompany
  | [] => []
  | s :: rest =>
    if (indFromTexts pageUrl (doc.headingTexts s)).isEmpty then extractIndAux doc pageUrl rest
    else indFromTexts pageUrl (doc.headingTexts s)

/-- `extractIndividualElements` (lines 372-395), capped at 50 results. -/
def extractIndividualElements (doc : PageDoc) (pageUrl : String) : List ExtractedCompany :=
  (extractIndAux doc pageUrl headingNameSelectors).take 50

/-- `extractCompaniesFromHTML` (lines 73-148): the container path when the
cascade matches, the heading-scan fallback otherwise. -/
def extractCompaniesFromHTML (cfg : ScrapingConfigM) (doc : PageDoc)
    (pageUrl : String) : List ExtractedCompany :=
  match firstContainers doc containerSelectors with
  | [] => extractIndividualElements doc pageUrl
  | es => es.enum.filterMap (fun pr => extractCompanyFromElement cfg pageUrl pr.1 pr.2)

/-! ## The orchestration loop of `FullWebsiteScraper.tsx` (lines 67-260)

A trace model of `startFullScraping`: phase 1 walks pages `1..totalPages`
(fetch, length check, extraction, buffering), phase 2 enriches the buffered
companies one by one, converting each to a `CompanyLead`, batching a
consumer emission every ten leads and emitting the full list at the end.

Stop semantics: within one run `stopRequested` is set at most once and never
cleared, so the flag is modelled by the schedule `stopAt` - the index of the
first read of `stopRequested.current` that observes it set (reads are
counted in program order: one per phase-1 page, one guarding phase 2, one
per phase-2 company).  Each read that observes the flag is recorded as a
`stopObserved` trace event.  Pause is modelled as never requested (the pause
branch, lines 105-114 and 177-183, only re-reads the two flags and sleeps,
so with no pause request it is a no-op); UI state updates, logs, toasts,
counters and the rate-limit sleeps produce no trace events.  `id` and
`lastUpdated` of `CompanyLead` come from the platform clock/random source
and are omitted from the record. -/

structure CompanyLead where
  companyName : String
  externalWebsite : Option String
  industry : Option String
  location : Option String
  contactPerson : Option String
  email : Option String
  phone : Option String
  extractedFrom : String
  status : String
  enrichedSource : Bool
deriving DecidableEq

/-- `convertExtractedToLead` (lines 50-65). -/
def convertExtractedToLead (e : ExtractedCompany) : CompanyLead :=
  { companyName := e.companyName, externalWebsite := e.externalWebsite,
    industry := e.industry, location := e.location, contactPerson := e.contactPerson,
    email := e.email, phone := e.phone, extractedFrom := e.extractedFrom,
    status := if truthy e.email || truthy e.phone then "enriched" else "extracted",
    enrichedSource := truthy e.email || truthy e.phone }

/-- Trace events of one run: a network fetch attempt, a call of the
`onLeadsExtracted` consumer callback, and a stop-flag read that observed the
flag set. -/
inductive REvent
  | net (url : String)
  | emitLeads (leads : List CompanyLead)
  | stopObserved
deriving DecidableEq

/-- The environment of one run: the scraper configuration, the enrichment
world, the `DOMParser` oracle for directory pages, the page count, and the
stop schedule. -/
structure RunEnv where
  cfg : ScrapingConfigM
  world : World
  parsePage : String → PageDoc
  totalPages : Nat
  stopAt : Option Nat

/-- Does the stop-flag read number `k` observe the flag set? -/
def stopSeen (stopAt : Option Nat) (k : Nat) : Bool :=
  match stopAt with
  | some j => decide (j ≤ k)
  | none => false

/-- One phase-1 page body (lines 119-164): its network events and extracted
companies.  A throwing `generatePageUrl` or fetch, a short payload
(length < 100) and an empty extraction are all caught or checked and the
loop advances. -/
def phase1Step (env : RunEnv) (page : Nat) : List REvent × List ExtractedCompany :=
  match generatePageUrl env.cfg page with
  | none => ([], [])
  | some pageUrl =>
    match env.world.fetch pageUrl with
    | none => ([REvent.net pageUrl], [])
    | some html =>
      if html.length < 100 then ([REvent.net pageUrl], [])
      else
        ([REvent.net pageUrl],
         if (extractCompaniesFromHTML env.cfg (env.parsePage html) pageUrl).isEmpty then []
         else extractCompaniesFromHTML env.cfg (env.parsePage html) pageUrl)

/-- Phase 1 (lines 99-165) over the remaining page count `n` (the current
page is `totalPages - n + 1`): returns the next read index, the buffered
companies and the trace. -/
def phase1 (env : RunEnv) : Nat → Nat → List ExtractedCompany → List REvent →
    Nat × List ExtractedCompany × List REvent
  | 0, k, comps, evs => (k, comps, evs)
  | n + 1, k, comps, evs =>
    if stopSeen env.stopAt k then (k + 1, comps, evs ++ [REvent.stopObserved])
    else
      phase1 env n (k + 1) (comps ++ (phase1Step env (env.totalPages - n)).2)
        (evs ++ (phase1Step env (env.totalPages - n)).1)

/-- Phase 2 (lines 174-224): enrich each buffered company, append the
converted lead, and emit the running list after every tenth company. -/
def phase2 (env : RunEnv) : List ExtractedCompany → Nat → Nat → List CompanyLead →
    List REvent → List CompanyLead × List REvent
  | [], _, _, leads, evs => (leads, evs)
  | c :: rest, i, k, leads, evs =>
    if stopSeen env.stopAt k then (leads, evs ++ [REvent.stopObserved])
    else
      phase2 env rest (i + 1) (k + 1)
        (leads ++ [convertExtractedToLead (performDeepExtractionT env.world c).1])
        (evs ++ (performDeepExtractionT env.world c).2.map REvent.net ++
          (if (i + 1) % 10 = 0 then
            [REvent.emitLeads (leads ++ [convertExtractedToLead (performDeepExtractionT env.world c).1])]
          else []))

/-- `startFullScraping` (lines 67-260): phase 1, the guard of line 168
(which reads the stop flag only when the buffer is nonempty), phase 2, and
the final-results block (lines 227-248), which calls the consumer with the
full lead list exactly when it is nonempty. -/
def runScraper (env : RunEnv) : List CompanyLead × List REvent :=
  if (phase1 env env.totalPages 0 [] []).2.1.isEmpty then
    ([], (phase1 env env.totalPages 0 [] []).2.2)
  else
    if stopSeen env.stopAt (phase1 env env.totalPages 0 [] []).1 then
      ([], (phase1 env env.totalPages 0 [] []).2.2 ++ [REvent.stopObserved])
    else
      if (phase2 env (phase1 env env.totalPages 0 [] []).2.1 0
            ((phase1 env env.totalPages 0 [] []).1 + 1) []
            (phase1 env env.totalPages 0 [] []).2.2).1.isEmpty then
        phase2 env (phase1 env env.totalPages 0 [] []).2.1 0
          ((phase1 env env.totalPages 0 [] []).1 + 1) []
          (phase1 env env.totalPages 0 [] []).2.2
      else
        ((phase2 env (phase1 env env.totalPages 0 [] []).2.1 0
            ((phase1 env env.totalPages 0 [] []).1 + 1) []
            (phase1 env env.totalPages 0 [] []).2.2).1,
         (phase2 env (phase1 env env.totalPages 0 [] []).2.1 0
            ((phase1 env env.totalPages 0 [] []).1 + 1) []
            (phase1 env env.totalPages 0 [] []).2.2).2 ++
           [REvent.emitLeads
             (phase2 env (phase1 env env.totalPages 0 [] []).2.1 0
               ((phase1 env env.totalPages 0 [] []).1 + 1) []
               (phase1 env env.totalPages 0 [] []).2.2).1])

/-- The trace suffix after the first `stopObserved` event (empty when no stop
was observed). -/
def afterFirstStop (evs : List REvent) : List REvent :=
  (evs.dropWhile (fun e => e ≠ REvent.stopObserved)).drop 1

/-- The consumer emissions of a trace, in order. -/
def emitsOf (evs : List REvent) : List (List CompanyLead) :=
  evs.filterMap (fun e =>
    match e with
    | REvent.emitLeads ls => some ls
    | _ => none)

/-! ## Shared lemmas -/

theorem dropWhile_head_not (p : Char → Bool) :
    ∀ l : List Char, ∀ c : Char, (l.dropWhile p).head? = some c → p c = false := by
  intro l
  induction l with
  | nil => intro c h; simp [List.dropWhile] at h
  | cons a as ih =>
    intro c h
    by_cases hp : p a = true
    · rw [List.dropWhile_cons_of_pos hp] at h; exact ih c h
    · rw [List.dropWhile_cons_of_neg hp] at h
      simp at h
      rw [← h]
      simpa using hp

theorem dropWhile_idem (p : Char → Bool) (l : List Char) :
    (l.dropWhile p).dropWhile p = l.dropWhile p := by
  induction l with
  | nil => simp
  | cons a as ih =>
    by_cases hp : p a = true <;> simp [List.dropWhile_cons, hp, ih]

theorem dropWhile_of_head_not (p : Char → Bool) (l : List Char)
    (h : ∀ c : Char, l.head? = some c → p c = false) : l.dropWhile p = l := by
  cases l with
  | nil => simp
  | cons a as =>
    have := h a rfl
    simp [List.dropWhile_cons, this]

theorem trimChars_eq_take (l : List Char) :
    ∃ m : Nat, trimChars l = (l.dropWhile wsChar).take m := by
  unfold trimChars
  set A := l.dropWhile wsChar with hA
  refine ⟨((A.reverse.dropWhile wsChar).reverse).length, ?_⟩
  have hsplit : (A.reverse.takeWhile wsChar) ++ (A.reverse.dropWhile wsChar) = A.reverse :=
    List.takeWhile_append_dropWhile wsChar A.reverse
  have hAeq : A = (A.reverse.dropWhile wsChar).reverse ++ (A.reverse.takeWhile wsChar).reverse := by
    conv_lhs => rw [← List.reverse_reverse A, ← hsplit]
    rw [List.reverse_append]
  have htake := List.take_left ((A.reverse.dropWhile wsChar).reverse)
    ((A.reverse.takeWhile wsChar).reverse)
  rw [← hAeq] at htake
  exact htake.symm

theorem head_of_take (l : List Char) (m : Nat) (c : Char)
    (h : (l.take m).head? = some c) : l.head? = some c := by
  cases l <;> cases m <;> simp_all

theorem trimChars_head_not_ws (l : List Char) (c : Char)
    (h : (trimChars l).head? = some c) : wsChar c = false := by
  obtain ⟨m, hm⟩ := trimChars_eq_take l
  rw [hm] at h
  exact dropWhile_head_not wsChar _ c (head_of_take _ m c h)

theorem trimChars_idem (l : List Char) : trimChars (trimChars l) = trimChars l := by
  have h1 : (trimChars l).dropWhile wsChar = trimChars l :=
    dropWhile_of_head_not _ _ (fun c hc => trimChars_head_not_ws l c hc)
  show (((trimChars l).dropWhile wsChar).reverse.dropWhile wsChar).reverse = trimChars l
  rw [h1]
  have h2 : (trimChars l).reverse = ((l.dropWhile wsChar).reverse).dropWhile wsChar := by
    unfold trimChars; simp
  rw [h2, dropWhile_idem]
  rfl

theorem jsTrim_idem (s : String) : jsTrim (jsTrim s) = jsTrim s := by
  show String.mk (trimChars (trimChars s.data)) = String.mk (trimChars s.data)
  rw [trimChars_idem]

theorem jsTrim_eq_empty_iff (s : String) : (jsTrim s = "") ↔ trimChars s.data = [] := by
  constructor
  · intro h
    have : (jsTrim s).data = ("" : String).data := by rw [h]
    simpa [jsTrim] using this
  · intro h
    show String.mk (trimChars s.data) = ""
    rw [h]

theorem jsTrim_length (s : String) : (jsTrim s).length = (trimChars s.data).length := rfl

theorem wsChar_not_digit (c : Char) (h : wsChar c = true) : c.isDigit = false := by
  simp [wsChar, Char.isWhitespace] at h
  rcases h with ((h | h) | h) | h <;> rw [h] <;> decide

theorem filter_digit_dropWhile_ws (l : List Char) :
    (l.dropWhile wsChar).filter Char.isDigit = l.filter Char.isDigit := by
  induction l with
  | nil => simp
  | cons a as ih =>
    by_cases hp : wsChar a = true
    · rw [List.dropWhile_cons_of_pos hp, ih,
        List.filter_cons_of_neg (by simpa using wsChar_not_digit a hp)]
    · rw [List.dropWhile_cons_of_neg hp]

theorem digitCount_trimChars (l : List Char) :
    ((trimChars l).filter Char.isDigit).length = (l.filter Char.isDigit).length := by
  unfold trimChars
  rw [List.filter_reverse, List.length_reverse, filter_digit_dropWhile_ws,
      List.filter_reverse, List.length_reverse, filter_digit_dropWhile_ws]

theorem digitCount_jsTrim (s : String) : digitCount (jsTrim s) = digitCount s := by
  show ((trimChars s.data).filter Char.isDigit).length = _
  rw [digitCount_trimChars]; rfl

theorem digitCount_cleanPhone (s : String) : digitCount (cleanPhone s) = digitCount s := by
  unfold cleanPhone
  rw [digitCount_jsTrim]
  show ((s.data.filter phoneKeepChar).filter Char.isDigit).length = _
  rw [List.filter_filter]
  congr 1
  apply List.filter_congr
  intro a _
  by_cases hd : a.isDigit = true
  · simp [hd, phoneKeepChar]
  · simp [hd]

theorem isValidPhone_bounds (s : String) (h : isValidPhone s = true) :
    7 ≤ digitCount s ∧ digitCount s ≤ 15 := by
  simpa [isValidPhone, digitCount] using h

/-! ## Lemmas about `setParam`

`removeParam name q` is `q` with every pair named `name` removed, and
`countParam name q` the number of pairs named `name`: the frame facts about
`searchParams.set` are stated with them. -/

def removeParam (name : String) : List (String × String) → List (String × String)
  | [] => []
  | pr :: rest => if pr.1 = name then removeParam name rest else pr :: removeParam name rest

def countParam (name : String) : List (String × String) → Nat
  | [] => 0
  | pr :: rest => (if pr.1 = name then 1 else 0) + countParam name rest

theorem removeParam_append (name : String) (a b : List (String × String)) :
    removeParam name (a ++ b) = removeParam name a ++ removeParam name b := by
  induction a with
  | nil => simp [removeParam]
  | cons pr rest ih =>
    by_cases hp : pr.1 = name <;> simp [removeParam, hp, ih]

theorem countParam_append (name : String) (a b : List (String × String)) :
    countParam name (a ++ b) = countParam name a + countParam name b := by
  induction a with
  | nil => simp [countParam]
  | cons pr rest ih =>
    by_cases hp : pr.1 = name
    · simp [countParam, hp, ih]; omega
    · simp [countParam, hp, ih]

theorem removeParam_setParamAux (name val : String) :
    ∀ (q : List (String × String)) (b : Bool),
      removeParam name (setParamAux name val q b) = removeParam name q := by
  intro q
  induction q with
  | nil => intro b; rfl
  | cons pr rest ih =>
    intro b
    by_cases hp : pr.1 = name
    · cases b <;> simp [setParamAux, hp, removeParam, ih]
    · simp [setParamAux, hp, removeParam, ih]

theorem removeParam_setParam (q : List (String × String)) (name val : String) :
    removeParam name (setParam q name val) = removeParam name q := by
  unfold setParam
  by_cases h : q.any (fun pr => pr.1 = name) = true
  · simp [h, removeParam_setParamAux]
  · have h0 : q.any (fun pr => pr.1 = name) = false := Bool.eq_false_iff.mpr h
    simp [h0, removeParam_append, removeParam]

theorem countParam_setParamAux_true (name val : String) :
    ∀ q : List (String × String),
      countParam name (setParamAux name val q true) = 0 := by
  intro q
  induction q with
  | nil => rfl
  | cons pr rest ih =>
    by_cases hp : pr.1 = name <;> simp [setParamAux, hp, countParam, ih]

theorem countParam_setParamAux_false (name val : String) :
    ∀ q : List (String × String), q.any (fun pr => pr.1 = name) = true →
      countParam name (setParamAux name val q false) = 1 := by
  intro q
  induction q with
  | nil => intro h; simp at h
  | cons pr rest ih =>
    intro h
    by_cases hp : pr.1 = name
    · simp [setParamAux, hp, countParam, countParam_setParamAux_true]
    · have hrest : rest.any (fun pr => pr.1 = name) = true := by
        rcases List.any_eq_true.mp h with ⟨x, hx, hxn⟩
        rcases List.mem_cons.mp hx with hx1 | hx2
        · exact absurd (by rw [← hx1]; exact of_decide_eq_true hxn) hp
        · exact List.any_eq_true.mpr ⟨x, hx2, hxn⟩
      simp [setParamAux, hp, countParam, ih hrest]

theorem countParam_zero_of_not_any (name : String) :
    ∀ q : List (String × String), q.any (fun pr => pr.1 = name) = false →
      countParam name q = 0 := by
  intro q
  induction q with
  | nil => intro _; rfl
  | cons pr rest ih =>
    intro h
    rw [List.any_cons] at h
    have h1 : (decide (pr.1 = name)) = false := by
      cases hd : decide (pr.1 = name) <;> simp [hd] at h ⊢
    have h2 : rest.any (fun pr => pr.1 = name) = false := by
      cases hr : rest.any (fun pr => pr.1 = name) <;> simp [hr, h1] at h ⊢
    simp [countParam, of_decide_eq_false h1, ih h2]

theorem countParam_setParam (q : List (String × String)) (name val : String) :
    countParam name (setParam q name val) = 1 := by
  unfold setParam
  by_cases h : q.any (fun pr => pr.1 = name) = true
  · simp [h, countParam_setParamAux_false name val q h]
  · have h0 : q.any (fun pr => pr.1 = name) = false := Bool.eq_false_iff.mpr h
    simp [h0, countParam_append, countParam, countParam_zero_of_not_any name q h0]

theorem lookupParam_setParamAux_false (name val : String) :
    ∀ q : List (String × String), q.any (fun pr => pr.1 = name) = true →
      lookupParam name (setParamAux name val q false) = some val := by
  intro q
  induction q with
  | nil => intro h; simp at h
  | cons pr rest ih =>
    intro h
    by_cases hp : pr.1 = name
    · simp [setParamAux, hp, lookupParam]
    · have hrest : rest.any (fun pr => pr.1 = name) = true := by
        rcases List.any_eq_true.mp h with ⟨x, hx, hxn⟩
        rcases List.mem_cons.mp hx with hx1 | hx2
        · exact absurd (by rw [← hx1]; exact of_decide_eq_true hxn) hp
        · exact List.any_eq_true.mpr ⟨x, hx2, hxn⟩
      simp [setParamAux, hp, lookupParam, ih hrest]

theorem lookupParam_eq_none (name : String) :
    ∀ q : List (String × String), q.any (fun pr => pr.1 = name) = false →
      lookupParam name q = none := by
  intro q
  induction q with
  | nil => intro _; rfl
  | cons pr rest ih =>
    intro h
    rw [List.any_cons] at h
    have h1 : (decide (pr.1 = name)) = false := by
      cases hd : decide (pr.1 = name) <;> simp [hd] at h ⊢
    have h2 : rest.any (fun pr => pr.1 = name) = false := by
      cases hr : rest.any (fun pr => pr.1 = name) <;> simp [hr, h1] at h ⊢
    simp [lookupParam, of_decide_eq_false h1, ih h2]

theorem lookupParam_append (name : String) :
    ∀ q : List (String × String), lookupParam name q = none →
      ∀ r, lookupParam name (q ++ r) = lookupParam name r := by
  intro q
  induction q with
  | nil => intro _ r; simp
  | cons pr rest ih =>
    intro h r
    by_cases hp : pr.1 = name
    · simp [lookupParam, hp] at h
    · have h2 : lookupParam name rest = none := by simpa [lookupParam, hp] using h
      have h3 : lookupParam name (pr :: (rest ++ r)) = lookupParam name (rest ++ r) := by
        simp [lookupParam, hp]
      rw [List.cons_append, h3]
      exact ih h2 r

theorem lookupParam_setParam (q : List (String × String)) (name val : String) :
    lookupParam name (setParam q name val) = some val := by
  unfold setParam
  by_cases h : q.any (fun pr => pr.1 = name) = true
  · simp [h, lookupParam_setParamAux_false name val q h]
  · have h0 : q.any (fun pr => pr.1 = name) = false := Bool.eq_false_iff.mpr h
    simp only [h0, Bool.false_eq_true, if_false]
    rw [lookupParam_append name q (lookupParam_eq_none name q h0)]
    simp [lookupParam]

/-! ## Claim C7 -/

/-- C7: for every page number `p ≥ 1` and `itemsPerPage` `n`, when the base
URL contains the substring `start=`, `generatePageUrl p` is the base URL
with query parameter `start` set to `(p-1)*n`; when it contains `page=`
(and not `start=`), with `page` set to `p`; when it contains `offset=` (and
neither of the others), with `offset` set to `(p-1)*n` - the guards being
the source's ordered branch conditions. -/
theorem generate_page_url_styles (cfg : ScrapingConfigM) (u : Url) (p : Nat)
    (hu : parseUrl cfg.baseUrl = some u) (_hp : 1 ≤ p) :
    (containsSub "start=" cfg.baseUrl = true →
      generatePageUrl cfg p = some (urlToString
        { u with query := setParam u.query "start" (toString ((p - 1) * cfg.itemsPerPage)) }) ∧
      lookupParam "start" (setParam u.query "start" (toString ((p - 1) * cfg.itemsPerPage))) =
        some (toString ((p - 1) * cfg.itemsPerPage))) ∧
    (containsSub "start=" cfg.baseUrl = false → containsSub "page=" cfg.baseUrl = true →
      generatePageUrl cfg p = some (urlToString
        { u with query := setParam u.query "page" (toString p) }) ∧
      lookupParam "page" (setParam u.query "page" (toString p)) = some (toString p)) ∧
    (containsSub "start=" cfg.baseUrl = false → containsSub "page=" cfg.baseUrl = false →
      containsSub "offset=" cfg.baseUrl = true →
      generatePageUrl cfg p = some (urlToString
        { u with query := setParam u.query "offset" (toString ((p - 1) * cfg.itemsPerPage)) }) ∧
      lookupParam "offset" (setParam u.query "offset" (toString ((p - 1) * cfg.itemsPerPage))) =
        some (toString ((p - 1) * cfg.itemsPerPage))) := by
  refine ⟨fun h1 => ⟨?_, lookupParam_setParam ..⟩,
          fun h1 h2 => ⟨?_, lookupParam_setParam ..⟩,
          fun h1 h2 h3 => ⟨?_, lookupParam_setParam ..⟩⟩
  · simp [generatePageUrl, hu, h1]
  · simp [generatePageUrl, hu, h1, h2]
  · simp [generatePageUrl, hu, h1, h2, h3]

def cfgStart : ScrapingConfigM :=
  { baseUrl := "https://dir.example.com/results?start=0", itemsPerPage := 20,
    companyNameSel := [], profileLinkSel := [], externalWebsiteSel := none,
    industrySel := none, locationSel := none }

def urlStart : Url :=
  { scheme := "https", host := "dir.example.com", path := "/results", query := [("start", "0")] }

/-- C7 witness: page 3 of a 20-per-page `start=`-style base URL. -/
theorem generate_page_url_styles_witness :
    (containsSub "start=" cfgStart.baseUrl = true →
      generatePageUrl cfgStart 3 = some (urlToString
        { urlStart with query := setParam urlStart.query "start" (toString ((3 - 1) * cfgStart.itemsPerPage)) }) ∧
      lookupParam "start" (setParam urlStart.query "start" (toString ((3 - 1) * cfgStart.itemsPerPage))) =
        some (toString ((3 - 1) * cfgStart.itemsPerPage))) ∧
    (containsSub "start=" cfgStart.baseUrl = false → containsSub "page=" cfgStart.baseUrl = true →
      generatePageUrl cfgStart 3 = some (urlToString
        { urlStart with query := setParam urlStart.query "page" (toString 3) }) ∧
      lookupParam "page" (setParam urlStart.query "page" (toString 3)) = some (toString 3)) ∧
    (containsSub "start=" cfgStart.baseUrl = false → containsSub "page=" cfgStart.baseUrl = false →
      containsSub "offset=" cfgStart.baseUrl = true →
      generatePageUrl cfgStart 3 = some (urlToString
        { urlStart with query := setParam urlStart.query "offset" (toString ((3 - 1) * cfgStart.itemsPerPage)) }) ∧
      lookupParam "offset" (setParam urlStart.query "offset" (toString ((3 - 1) * cfgStart.itemsPerPage))) =
        some (toString ((3 - 1) * cfgStart.itemsPerPage))) :=
  generate_page_url_styles cfgStart urlStart 3 (by decide) (by decide)

/-! ## Claim C10 -/

/-- The pagination parameter `generatePageUrl` chooses, with the source's
precedence (`start` over `page` over `offset`, defaulting to `start`). -/
def paginationParam (base : String) : String :=
  if containsSub "start=" base then "start"
  else if containsSub "page=" base then "page"
  else if containsSub "offset=" base then "offset"
  else "start"

/-- C10: for every page `p`, `generatePageUrl` preserves the base URL's
scheme, host and path (the result serialises the parsed base URL with only
its query replaced) and every query parameter other than the single
pagination parameter it sets; exactly one pagination parameter - chosen
with precedence `start` over `page` over `offset`, `start` by default -
occurs in the result, bound to `p` for the `page` style and to `(p-1)*n`
otherwise. -/
theorem generate_page_url_frame (cfg : ScrapingConfigM) (u : Url) (p : Nat)
    (hu : parseUrl cfg.baseUrl = some u) :
    ∃ q2 : List (String × String),
      generatePageUrl cfg p = some (urlToString { u with query := q2 }) ∧
      removeParam (paginationParam cfg.baseUrl) q2 =
        removeParam (paginationParam cfg.baseUrl) u.query ∧
      countParam (paginationParam cfg.baseUrl) q2 = 1 ∧
      lookupParam (paginationParam cfg.baseUrl) q2 =
        some (if containsSub "start=" cfg.baseUrl = false ∧ containsSub "page=" cfg.baseUrl = true
              then toString p else toString ((p - 1) * cfg.itemsPerPage)) := by
  by_cases h1 : containsSub "start=" cfg.baseUrl = true
  · refine ⟨setParam u.query "start" (toString ((p - 1) * cfg.itemsPerPage)), ?_, ?_, ?_, ?_⟩
    · simp [generatePageUrl, hu, h1]
    · simp [paginationParam, h1, removeParam_setParam]
    · simp [paginationParam, h1, countParam_setParam]
    · simp [paginationParam, h1, lookupParam_setParam]
  · have h1f : containsSub "start=" cfg.baseUrl = false := Bool.eq_false_iff.mpr h1
    by_cases h2 : containsSub "page=" cfg.baseUrl = true
    · refine ⟨setParam u.query "page" (toString p), ?_, ?_, ?_, ?_⟩
      · simp [generatePageUrl, hu, h1f, h2]
      · simp [paginationParam, h1f, h2, removeParam_setParam]
      · simp [paginationParam, h1f, h2, countParam_setParam]
      · simp [paginationParam, h1f, h2, lookupParam_setParam]
    · have h2f : containsSub "page=" cfg.baseUrl = false := Bool.eq_false_iff.mpr h2
      by_cases h3 : containsSub "offset=" cfg.baseUrl = true
      · refine ⟨setParam u.query "offset" (toString ((p - 1) * cfg.itemsPerPage)), ?_, ?_, ?_, ?_⟩
        · simp [generatePageUrl, hu, h1f, h2f, h3]
        · simp [paginationParam, h1f, h2f, h3, removeParam_setParam]
        · simp [paginationParam, h1f, h2f, h3, countParam_setParam]
        · simp [paginationParam, h1f, h2f, h3, lookupParam_setParam]
      · have h3f : containsSub "offset=" cfg.baseUrl = false := Bool.eq_false_iff.mpr h3
        refine ⟨setParam u.query "start" (toString ((p - 1) * cfg.itemsPerPage)), ?_, ?_, ?_, ?_⟩
        · simp [generatePageUrl, hu, h1f, h2f, h3f]
        · simp [paginationParam, h1f, h2f, h3f, removeParam_setParam]
        · simp [paginationParam, h1f, h2f, h3f, countParam_setParam]
        · simp [paginationParam, h1f, h2f, h3f, lookupParam_setParam]

def cfgPage : ScrapingConfigM :=
  { baseUrl := "https://x.com/list?page=2&q=a", itemsPerPage := 20,
    companyNameSel := [], profileLinkSel := [], externalWebsiteSel := none,
    industrySel := none, locationSel := none }

def urlPage : Url :=
  { scheme := "https", host := "x.com", path := "/list", query := [("page", "2"), ("q", "a")] }

/-- C10 witness: page 5 of a `page=`-style base URL carrying another query
parameter. -/
theorem generate_page_url_frame_witness :
    ∃ q2 : List (String × String),
      generatePageUrl cfgPage 5 = some (urlToString { urlPage with query := q2 }) ∧
      removeParam (paginationParam cfgPage.baseUrl) q2 =
        removeParam (paginationParam cfgPage.baseUrl) urlPage.query ∧
      countParam (paginationParam cfgPage.baseUrl) q2 = 1 ∧
      lookupParam (paginationParam cfgPage.baseUrl) q2 =
        some (if containsSub "start=" cfgPage.baseUrl = false ∧ containsSub "page=" cfgPage.baseUrl = true
              then toString 5 else toString ((5 - 1) * cfgPage.itemsPerPage)) :=
  generate_page_url_frame cfgPage urlPage 5 (by decide)

/-! ## Soundness of the email and phone extraction passes -/

theorem truthy_some (o : Option String) (h : truthy o = true) : ∃ s, o = some s ∧ s ≠ "" := by
  cases o with
  | none => simp [truthy] at h
  | some s => exact ⟨s, rfl, by simpa [truthy] using h⟩

theorem structEmail_valid (q : String → Option DomElem) :
    ∀ (sels : List String) (e : String), structEmail q sels = some e → isValidEmail e = true := by
  intro sels
  induction sels with
  | nil => intro e h; simp [structEmail] at h
  | cons s rest ih =>
    intro e h
    unfold structEmail at h
    split at h
    · exact ih e h
    · split at h
      · split at h
        · rename_i hcond
          have hc2 := hcond
          simp only [Bool.and_eq_true, decide_eq_true_eq] at hc2
          have he := Option.some_inj.mp h
          subst he
          exact hc2.2
        · exact ih e h
      · exact ih e h

theorem firstValidScanEmail_valid :
    ∀ (ms : List String) (e : String), firstValidScanEmail ms = some e →
      isValidEmail e = true ∧ isGenericEmail e = false := by
  intro ms
  induction ms with
  | nil => intro e h; simp [firstValidScanEmail] at h
  | cons m rest ih =>
    intro e h
    unfold firstValidScanEmail at h
    split at h
    · rename_i hcond
      have hc2 := hcond
      simp only [Bool.and_eq_true, Bool.not_eq_true'] at hc2
      have he := Option.some_inj.mp h
      subst he
      exact hc2
    · exact ih e h

theorem textScanEmail_valid :
    ∀ (pats : List (List String)) (e : String), textScanEmail pats = some e →
      isValidEmail e = true ∧ isGenericEmail e = false := by
  intro pats
  induction pats with
  | nil => intro e h; simp [textScanEmail] at h
  | cons ms rest ih =>
    intro e h
    unfold textScanEmail at h
    split at h
    · rename_i e0 hf
      have he := Option.some_inj.mp h
      exact he ▸ firstValidScanEmail_valid ms e0 hf
    · exact ih e h

theorem structPhone_bounds (q : String → Option DomElem) :
    ∀ (sels : List String) (ph : String), structPhone q sels = some ph →
      7 ≤ digitCount ph ∧ digitCount ph ≤ 15 := by
  intro sels
  induction sels with
  | nil => intro ph h; simp [structPhone] at h
  | cons s rest ih =>
    intro ph h
    unfold structPhone at h
    split at h
    · exact ih ph h
    · split at h
      · split at h
        · rename_i el hel cand hcand hcond
          have hc2 := hcond
          simp only [Bool.and_eq_true, decide_eq_true_eq] at hc2
          have he := Option.some_inj.mp h
          have hb := isValidPhone_bounds cand hc2.2
          rw [← he, digitCount_cleanPhone]
          exact hb
        · exact ih ph h
      · exact ih ph h

theorem firstValidScanPhone_bounds :
    ∀ (ms : List String) (ph : String), firstValidScanPhone ms = some ph →
      7 ≤ digitCount ph ∧ digitCount ph ≤ 15 := by
  intro ms
  induction ms with
  | nil => intro ph h; simp [firstValidScanPhone] at h
  | cons m rest ih =>
    intro ph h
    unfold firstValidScanPhone at h
    split at h
    · rename_i hcond
      have he := Option.some_inj.mp h
      have hb := isValidPhone_bounds m hcond
      rw [← he, digitCount_cleanPhone]
      exact hb
    · exact ih ph h

theorem textScanPhone_bounds :
    ∀ (pats : List (List String)) (ph : String), textScanPhone pats = some ph →
      7 ≤ digitCount ph ∧ digitCount ph ≤ 15 := by
  intro pats
  induction pats with
  | nil => intro ph h; simp [textScanPhone] at h
  | cons ms rest ih =>
    intro ph h
    unfold textScanPhone at h
    split at h
    · rename_i p0 hf
      have he := Option.some_inj.mp h
      exact he ▸ firstValidScanPhone_bounds ms p0 hf
    · exact ih ph h

theorem extractContactDetails_phone_bounds (doc : CDoc) (ph : String)
    (h : (extractContactDetails doc).phone = some ph) :
    7 ≤ digitCount ph ∧ digitCount ph ≤ 15 := by
  unfold extractContactDetails at h
  simp only at h
  split at h
  · rename_i p0 hs
    have he := Option.some_inj.mp h
    exact he ▸ structPhone_bounds doc.query phoneSelectors p0 hs
  · exact textScanPhone_bounds doc.phoneMatches ph h

theorem tryContactPage_phone_bounds (w : World) (base : String) :
    ∀ (pats : List String) (ph : String), (tryContactPageT w base pats).1.phone = some ph →
      7 ≤ digitCount ph ∧ digitCount ph ≤ 15 := by
  intro pats
  induction pats with
  | nil => intro ph h; simp [tryContactPageT, emptyContactInfo] at h
  | cons pat rest ih =>
    intro ph h
    unfold tryContactPageT at h
    split at h
    · exact ih ph h
    · split at h
      · exact ih ph h
      · split at h
        · exact ih ph h
        · split at h
          · exact extractContactDetails_phone_bounds _ ph h
          · exact ih ph h

/-! ## Claim C1 -/

/-- C1 (amended): every email accepted by the contact extractor satisfies the
strict grammar with length below 100; an email accepted through the
text-scan regex fallback (which runs exactly when the structured-selector
pass found nothing) additionally contains no denylisted substring.  The
structured-selector pass itself does not consult the denylist - see the
counterexample. -/
theorem accepted_email_valid (doc : CDoc) (e : String)
    (h : (extractContactDetails doc).email = some e) :
    isValidEmail e = true ∧
      (structEmail doc.query emailSelectors = none → isGenericEmail e = false) := by
  unfold extractContactDetails at h
  simp only at h
  split at h
  · rename_i e0 hs
    have he := Option.some_inj.mp h
    constructor
    · exact he ▸ structEmail_valid doc.query emailSelectors e0 hs
    · intro hnone
      rw [hs] at hnone
      cases hnone
  · rename_i hs
    have hv := textScanEmail_valid doc.emailMatches e h
    exact ⟨hv.1, fun _ => hv.2⟩

/-- A page whose only contact datum is a structured `mailto:` link carrying a
denylisted address. -/
def docSelectorGeneric : CDoc :=
  { query := fun s =>
      if s = "a[href^=\"mailto:\"]" then some ⟨some "mailto:admin@corp.com", none⟩ else none,
    emailMatches := [], phoneMatches := [] }

/-- C1 counterexample: the structured-selector path accepts
`admin@corp.com`, which contains the denylisted substring `admin@` - so an
accepted email can contain a denylisted substring, contradicting the claim
as stated. -/
theorem email_denylist_counterexample :
    (extractContactDetails docSelectorGeneric).email = some "admin@corp.com" ∧
    isGenericEmail "admin@corp.com" = true := by
  constructor
  · decide
  · decide

/-- A page with no structured contact data whose body text contains a single
address. -/
def docTextScanEmail : CDoc :=
  { query := fun _ => none, emailMatches := [["info@acme.test"]], phoneMatches := [] }

/-- C1 witness: the amended theorem applied to a text-scan extraction. -/
theorem accepted_email_valid_witness :
    isValidEmail "info@acme.test" = true ∧
      (structEmail docTextScanEmail.query emailSelectors = none →
        isGenericEmail "info@acme.test" = false) :=
  accepted_email_valid docTextScanEmail "info@acme.test" (by decide)

/-! ## Claim C9 -/

theorem mergeMainInfo_phone_cases (c : ExtractedCompany) (i : ContactInfo) :
    (mergeMainInfo c i).phone = c.phone ∨
      ((mergeMainInfo c i).phone = i.phone ∧ truthy i.phone = true) := by
  by_cases hc : (truthy i.phone && !truthy c.phone) = true
  · right
    exact ⟨by simp [mergeMainInfo, hc], (Bool.and_eq_true _ _ ▸ hc).1⟩
  · left
    simp [mergeMainInfo, Bool.eq_false_iff.mpr hc]

theorem mergeContactPageInfo_phone_cases (c : ExtractedCompany) (i : ContactInfo) :
    (mergeContactPageInfo c i).phone = c.phone ∨
      ((mergeContactPageInfo c i).phone = i.phone ∧ truthy i.phone = true) := by
  by_cases hc : truthy i.phone = true
  · right
    exact ⟨by simp [mergeContactPageInfo, hc], hc⟩
  · left
    simp [mergeContactPageInfo, Bool.eq_false_iff.mpr hc]

/-- C9 (amended): whenever the enricher changes a lead's phone field, the new
value passed the enricher's validation, so its digit-only form has length in
[7,15].  (The listing-page text scan is not covered: it applies no
digit-count validation - see the counterexample.) -/
theorem enricher_phone_digit_bounds (w : World) (c : ExtractedCompany)
    (h : (performDeepExtraction w c).phone ≠ c.phone) :
    ∃ ph, (performDeepExtraction w c).phone = some ph ∧
      7 ≤ digitCount ph ∧ digitCount ph ≤ 15 := by
  cases hext : c.externalWebsite with
  | none =>
    exact absurd (by simp [performDeepExtraction, performDeepExtractionT, hext]) h
  | some site =>
    by_cases hsite : site = ""
    · exact absurd
        (by simp [performDeepExtraction, performDeepExtractionT, hext, hsite]) h
    · cases hf : w.fetch site with
      | none =>
        exact absurd
          (by simp [performDeepExtraction, performDeepExtractionT, hext, hsite, hf]) h
      | some content =>
        by_cases hcont : content = ""
        · exact absurd
            (by simp [performDeepExtraction, performDeepExtractionT, hext, hsite, hf, hcont]) h
        · by_cases hbr :
            (!truthy (mergeMainInfo c (extractContactDetails (w.parse content))).email &&
              !truthy (mergeMainInfo c (extractContactDetails (w.parse content))).phone) = true
          · have hr : (performDeepExtraction w c).phone =
                (mergeContactPageInfo (mergeMainInfo c (extractContactDetails (w.parse content)))
                  (tryContactPageT w site contactPagePatterns).1).phone := by
              simp [performDeepExtraction, performDeepExtractionT, hext, hsite, hf, hcont, hbr]
            rcases mergeContactPageInfo_phone_cases
                (mergeMainInfo c (extractContactDetails (w.parse content)))
                (tryContactPageT w site contactPagePatterns).1 with hcp | ⟨hcp, htr⟩
            · rw [hcp] at hr
              rcases mergeMainInfo_phone_cases c (extractContactDetails (w.parse content)) with
                hm | ⟨hm, htr2⟩
              · exact absurd (hr.trans hm) h
              · rw [hm] at hr
                obtain ⟨p, hp, -⟩ := truthy_some _ htr2
                exact ⟨p, hr.trans hp,
                  extractContactDetails_phone_bounds (w.parse content) p hp⟩
            · rw [hcp] at hr
              obtain ⟨p, hp, -⟩ := truthy_some _ htr
              exact ⟨p, hr.trans hp,
                tryContactPage_phone_bounds w site contactPagePatterns p hp⟩
          · have hr : (performDeepExtraction w c).phone =
                (mergeMainInfo c (extractContactDetails (w.parse content))).phone := by
              simp [performDeepExtraction, performDeepExtractionT, hext, hsite, hf, hcont,
                Bool.eq_false_iff.mpr hbr]
            rcases mergeMainInfo_phone_cases c (extractContactDetails (w.parse content)) with
              hm | ⟨hm, htr2⟩
            · exact absurd (hr.trans hm) h
            · rw [hm] at hr
              obtain ⟨p, hp, -⟩ := truthy_some _ htr2
              exact ⟨p, hr.trans hp,
                extractContactDetails_phone_bounds (w.parse content) p hp⟩

/-- A listing container whose text content is ten opening parentheses - a
match of the loose listing-page phone pattern with no digits at all. -/
def elemLoosePhone : ListingElem :=
  { queryText := fun s => if s = ".company-name" then some "EvilCo" else none,
    queryHref := fun _ => none, links := [], emailMatch := none,
    phoneMatch := some "((((((((((" }

def docLoosePhone : PageDoc :=
  { containers := fun s => if s = ".company-listing" then [elemLoosePhone] else [],
    headingTexts := fun _ => [] }

def cfgLoose : ScrapingConfigM :=
  { baseUrl := "https://dir.example.com/list", itemsPerPage := 20,
    companyNameSel := [".company-name"], profileLinkSel := [],
    externalWebsiteSel := some [], industrySel := none, locationSel := none }

/-- C9 counterexample: the listing-page text scan stores a phone value with
zero digits - the string of ten opening parentheses genuinely matches the
loose pattern, is accepted without any digit-count validation, and its
digit-only form has length 0, outside [7,15]. -/
theorem listing_phone_scan_counterexample :
    ((extractCompaniesFromHTML cfgLoose docLoosePhone "https://dir.example.com/list").map
        (fun c => c.phone)) = [some "(((((((((("] ∧
    phoneLooseFull "((((((((((" = true ∧
    digitCount "((((((((((" = 0 := by
  refine ⟨by decide, by decide, by decide⟩

/-- A site whose main page carries a structured `tel:` link. -/
def docTelPhone : CDoc :=
  { query := fun s =>
      if s = "a[href^=\"tel:\"]" then some ⟨some "tel:+44 20 7123 4567", none⟩ else none,
    emailMatches := [], phoneMatches := [] }

def worldPhone : World :=
  { fetch := fun u => if u = "https://acme.test" then some "<html>main</html>" else none,
    parse := fun _ => docTelPhone }

def compPhone : ExtractedCompany :=
  { companyName := "Acme", profileLink := none, externalWebsite := some "https://acme.test",
    industry := none, location := none, contactPerson := none, email := none, phone := none,
    extractedFrom := "https://dir.example.com/list",
    deepExtractionStatus := some DeepStatus.pending, contactPageUrl := none }

/-- C9 witness: the amended theorem applied to an enrichment that accepts a
structured phone. -/
theorem enricher_phone_digit_bounds_witness :
    ∃ ph, (performDeepExtraction worldPhone compPhone).phone = some ph ∧
      7 ≤ digitCount ph ∧ digitCount ph ≤ 15 :=
  enricher_phone_digit_bounds worldPhone compPhone (by decide)

/-! ## Claim C3 -/

/-- C3 (amended): enrichment never overwrites an email or phone that was
already populated (truthy) on the input listing.  An already-populated
contactPerson survives the main-page merge but can be overwritten by the
contact-page fallback - see the counterexample. -/
theorem email_phone_never_overwritten (w : World) (c : ExtractedCompany) :
    (truthy c.email = true → (performDeepExtraction w c).email = c.email) ∧
    (truthy c.phone = true → (performDeepExtraction w c).phone = c.phone) := by
  cases hext : c.externalWebsite with
  | none =>
    constructor <;> intro _ <;> simp [performDeepExtraction, performDeepExtractionT, hext]
  | some site =>
    by_cases hsite : site = ""
    · constructor <;> intro _ <;>
        simp [performDeepExtraction, performDeepExtractionT, hext, hsite]
    · cases hf : w.fetch site with
      | none =>
        constructor <;> intro _ <;>
          simp [performDeepExtraction, performDeepExtractionT, hext, hsite, hf]
      | some content =>
        by_cases hcont : content = ""
        · constructor <;> intro _ <;>
            simp [performDeepExtraction, performDeepExtractionT, hext, hsite, hf, hcont]
        · constructor
          · intro he
            have hce : (mergeMainInfo c (extractContactDetails (w.parse content))).email =
                c.email := by
              simp [mergeMainInfo, he]
            simp [performDeepExtraction, performDeepExtractionT, hext, hsite, hf, hcont,
              hce, he]
          · intro hp
            have hcp : (mergeMainInfo c (extractContactDetails (w.parse content))).phone =
                c.phone := by
              simp [mergeMainInfo, hp]
            simp [performDeepExtraction, performDeepExtractionT, hext, hsite, hf, hcont,
              hcp, hp]

/-- A contact page carrying a structured phone and a contact-person name. -/
def docContactRich : CDoc :=
  { query := fun s =>
      if s = "a[href^=\"tel:\"]" then some ⟨some "tel:+44 20 7123 4567", none⟩
      else if s = ".contact-person" then some ⟨none, some "Bob Jones"⟩
      else none,
    emailMatches := [], phoneMatches := [] }

/-- A page with no contact data at all. -/
def emptyCDoc : CDoc := { query := fun _ => none, emailMatches := [], phoneMatches := [] }

/-- A world where the main page of `https://acme.test` is empty of contact
data and its `/contact` page is `docContactRich`. -/
def worldContactPage : World :=
  { fetch := fun u =>
      if u = "https://acme.test" then some "<html>plain</html>"
      else if u = "https://acme.test/contact" then some "<html>contact</html>"
      else none,
    parse := fun s => if s = "<html>contact</html>" then docContactRich else emptyCDoc }

/-- A phase-1 listing that already carries a contact person. -/
def compAlice : ExtractedCompany :=
  { companyName := "Acme", profileLink := none, externalWebsite := some "https://acme.test",
    industry := none, location := none, contactPerson := some "Alice Smith",
    email := none, phone := none, extractedFrom := "https://dir.example.com/list",
    deepExtractionStatus := some DeepStatus.pending, contactPageUrl := none }

/-- C3 counterexample: a listing whose contactPerson was already populated in
phase 1 has it overwritten by the contact-page fallback (the merge of source
lines 183-185 has no already-populated guard), contradicting the claim for
the contactPerson field. -/
theorem contact_person_overwrite_counterexample :
    compAlice.contactPerson = some "Alice Smith" ∧
    (performDeepExtraction worldContactPage compAlice).contactPerson = some "Bob Jones" := by
  refine ⟨rfl, by decide⟩

/-! ## Claim C2 -/

/-- A phase-1 listing with an external website and no contact data. -/
def compC2 : ExtractedCompany :=
  { companyName := "Acme", profileLink := none, externalWebsite := some "https://acme.test",
    industry := none, location := none, contactPerson := none, email := none, phone := none,
    extractedFrom := "https://dir.example.com/list",
    deepExtractionStatus := some DeepStatus.pending, contactPageUrl := none }

/-- C2: the enricher probes the contact-page suffixes and stops at the first
page yielding email or phone, but it never records that page's URL:
`contactPageUrl` is preserved unchanged on every input (first conjunct), and
in the spec's own scenario - main page empty, `/contact` page with a valid
phone - the phone is populated and the run completes while `contactPageUrl`
stays unset. -/
theorem contact_page_url_never_set :
    (∀ (w : World) (c : ExtractedCompany),
        (performDeepExtraction w c).contactPageUrl = c.contactPageUrl) ∧
    (performDeepExtraction worldContactPage compC2).phone = some "+44 20 7123 4567" ∧
    (performDeepExtraction worldContactPage compC2).deepExtractionStatus =
      some DeepStatus.completed ∧
    (performDeepExtraction worldContactPage compC2).contactPageUrl = none := by
  refine ⟨?_, by decide, by decide, by decide⟩
  intro w c
  cases hext : c.externalWebsite with
  | none => simp [performDeepExtraction, performDeepExtractionT, hext]
  | some site =>
    by_cases hsite : site = ""
    · simp [performDeepExtraction, performDeepExtractionT, hext, hsite]
    · cases hf : w.fetch site with
      | none => simp [performDeepExtraction, performDeepExtractionT, hext, hsite, hf]
      | some content =>
        by_cases hcont : content = ""
        · simp [performDeepExtraction, performDeepExtractionT, hext, hsite, hf, hcont]
        · simp only [performDeepExtraction, performDeepExtractionT, hext, hsite, hf, hcont,
            if_neg, ite_false]
          split <;>
            simp [mergeContactPageInfo, mergeMainInfo, extractContactDetails, truthy]

theorem mockHtml_ne_empty (a b c d : String) : mockHtml a b c d ≠ "" := by
  intro h
  have h2 := congrArg String.length h
  simp only [mockHtml, String.length_append] at h2
  have h3 : ("" : String).length = 0 := rfl
  rw [h3] at h2
  have h4 : (1 : Nat) ≤ ("\n      <html>\n        <head><title>" : String).length := by decide
  omega

theorem tryProxies_some_ne_empty (env : FetchEnv) (url : String) :
    ∀ (is : List Nat) (c : String), tryProxies env url is = some c → c ≠ "" := by
  intro is
  induction is with
  | nil => intro c h; simp [tryProxies] at h
  | cons i rest ih =>
    intro c h
    unfold tryProxies at h
    split at h
    · rename_i c0 hc0
      split at h
      · exact ih c h
      · rename_i hne
        have he := Option.some_inj.mp h
        rw [← he]
        exact hne
    · exact ih c h

theorem generateMock_some_ne_empty (env : FetchEnv) (url c : String)
    (h : generateMockWebsiteContent env url = some c) : c ≠ "" := by
  unfold generateMockWebsiteContent at h
  split at h
  · cases h
  · rename_i u hu
    have he := Option.some_inj.mp h
    rw [← he]
    apply mockHtml_ne_empty

theorem fetchPageContent_ne_empty (env : FetchEnv) (url c : String)
    (h : fetchPageContent env url = some c) : c ≠ "" := by
  unfold fetchPageContent at h
  split at h
  · rename_i c0 hc0
    have he := Option.some_inj.mp h
    rw [← he]
    exact tryProxies_some_ne_empty env url [0, 1, 2] c0 hc0
  · exact generateMock_some_ne_empty env url c h

/-! ## Claim C4 -/

/-- C4: with the real fetch pipeline plugged in, the enricher reports
status `failed` exactly when the listing has no truthy external website or
the fetch call throws (which, by construction of `fetchPageContent`,
happens exactly when every relay fails and the URL is unparseable), and
status `completed` in every other case - regardless of whether any contact
field was found. -/
theorem enrichment_status_iff (env : FetchEnv) (pr : String → CDoc) (c : ExtractedCompany) :
    ((performDeepExtraction ⟨fetchPageContent env, pr⟩ c).deepExtractionStatus =
        some DeepStatus.failed ↔
      (truthy c.externalWebsite = false ∨
        fetchPageContent env (c.externalWebsite.getD "") = none)) ∧
    ((performDeepExtraction ⟨fetchPageContent env, pr⟩ c).deepExtractionStatus =
        some DeepStatus.completed ↔
      ¬ (truthy c.externalWebsite = false ∨
        fetchPageContent env (c.externalWebsite.getD "") = none)) := by
  cases hext : c.externalWebsite with
  | none =>
    simp [performDeepExtraction, performDeepExtractionT, hext, truthy]
  | some site =>
    by_cases hsite : site = ""
    · simp [performDeepExtraction, performDeepExtractionT, hext, hsite, truthy]
    · cases hf : fetchPageContent env site with
      | none =>
        simp [performDeepExtraction, performDeepExtractionT, hext, hsite, hf, truthy]
      | some content =>
        have hcont : content ≠ "" := fetchPageContent_ne_empty env site content hf
        have hstat : (performDeepExtraction ⟨fetchPageContent env, pr⟩ c).deepExtractionStatus =
            some DeepStatus.completed := by
          simp only [performDeepExtraction, performDeepExtractionT, hext, hf]
          rw [if_neg hsite, if_neg hcont]
          split <;> simp
        have hrhsF : ¬ (truthy (some site) = false ∨
            fetchPageContent env ((some site).getD "") = none) := by
          intro hrhs
          rcases hrhs with hrhs | hrhs
          · simp [truthy, hsite] at hrhs
          · simp only [Option.getD_some] at hrhs
            rw [hf] at hrhs
            cases hrhs
        rw [hstat]
        constructor
        · constructor
          · intro h; simp at h
          · intro h; exact absurd h hrhsF
        · exact ⟨fun _ => hrhsF, fun _ => rfl⟩

/-! ## Claim C6 -/

/-- C6 (amended): when every relay source fails and the URL is parseable,
the fetch does not propagate a failure to the caller - it returns the
synthetically generated mock markup, which is nonempty.  However the
returned markup carries no tag: callers cannot distinguish real from
synthetic content, and for an unparseable URL the fallback itself throws -
see the counterexample. -/
theorem fetch_fallback_synthetic (env : FetchEnv) (url : String) (u : Url)
    (hu : parseUrl url = some u)
    (hp : ∀ i : Nat, env.proxyContents i url = none) :
    fetchPageContent env url = generateMockWebsiteContent env url ∧
    ∃ s, fetchPageContent env url = some s ∧ s ≠ "" := by
  have htp : tryProxies env url [0, 1, 2] = none := by simp [tryProxies, hp]
  have h1 : fetchPageContent env url = generateMockWebsiteContent env url := by
    unfold fetchPageContent
    rw [htp]
  refine ⟨h1, ?_⟩
  rw [h1]
  unfold generateMockWebsiteContent
  simp only [hu]
  exact ⟨_, rfl, mockHtml_ne_empty _ _ _ _⟩

/-- The environment in which every relay fails. -/
def envAllFail : FetchEnv :=
  { proxyContents := fun _ _ => none, randE := 0, randP := 0, randN := 0 }

/-- The exact markup the mock generator produces for `https://acme.test`
under `envAllFail`. -/
def exMockContent : String :=
  mockHtml "acme" "info@acme.test" "+44 20 7123 4567" "John Smith"

/-- An environment whose first relay really serves `exMockContent` for
`https://acme.test`. -/
def envRealMock : FetchEnv :=
  { proxyContents := fun i u =>
      if i = 0 && u = "https://acme.test" then some exMockContent else none,
    randE := 0, randP := 0, randN := 0 }

set_option maxRecDepth 8192 in
/-- C6 counterexample: a really-fetched page and the synthetic fallback can
be the very same string - the fetch result is not tagged, so callers cannot
distinguish real from synthetic content; and for an unparseable URL the
exhausted fetch propagates a failure instead of returning synthetic
markup. -/
theorem synthetic_content_untagged_counterexample :
    fetchPageContent envRealMock "https://acme.test" = some exMockContent ∧
    fetchPageContent envAllFail "https://acme.test" = some exMockContent ∧
    fetchPageContent envAllFail "not a url" = none := by
  refine ⟨by decide, by decide, by decide⟩

/-- C6 witness: the amended theorem applied to `envAllFail`. -/
theorem fetch_fallback_synthetic_witness :
    fetchPageContent envAllFail "https://acme.test" =
      generateMockWebsiteContent envAllFail "https://acme.test" ∧
    ∃ s, fetchPageContent envAllFail "https://acme.test" = some s ∧ s ≠ "" :=
  fetch_fallback_synthetic envAllFail "https://acme.test"
    ⟨"https", "acme.test", "", []⟩ (by decide) (fun _ => rfl)

/-! ## Claim C8 -/

theorem jsTrim_ne_empty_length (s : String) (h : jsTrim s ≠ "") : 0 < (jsTrim s).length := by
  rw [jsTrim_length]
  exact List.length_pos.mpr (fun he => h ((jsTrim_eq_empty_iff s).mpr he))

theorem indFromTexts_name (pageUrl : String) (ts : List (Option String)) (c : ExtractedCompany)
    (h : c ∈ indFromTexts pageUrl ts) : 0 < (jsTrim c.companyName).length := by
  unfold indFromTexts at h
  rw [List.mem_filterMap] at h
  obtain ⟨ot, hmem, hf⟩ := h
  cases ot with
  | none => cases hf
  | some t =>
    rw [Option.ite_none_right_eq_some] at hf
    obtain ⟨hcond, he⟩ := hf
    simp only [Bool.and_eq_true, decide_eq_true_eq] at hcond
    rw [← Option.some_inj.mp he]
    show 0 < (jsTrim (jsTrim t)).length
    rw [jsTrim_idem]
    omega

theorem extractIndAux_name (doc : PageDoc) (pageUrl : String) :
    ∀ (sels : List String) (c : ExtractedCompany), c ∈ extractIndAux doc pageUrl sels →
      0 < (jsTrim c.companyName).length := by
  intro sels
  induction sels with
  | nil => intro c h; simp [extractIndAux] at h
  | cons s rest ih =>
    intro c h
    unfold extractIndAux at h
    split at h
    · exact ih c h
    · exact indFromTexts_name pageUrl _ c h

theorem extractCompanyFromElement_name (cfg : ScrapingConfigM) (pageUrl : String) (idx : Nat)
    (e : ListingElem) (c : ExtractedCompany)
    (h : extractCompanyFromElement cfg pageUrl idx e = some c) :
    0 < (jsTrim c.companyName).length := by
  unfold extractCompanyFromElement at h
  split at h
  · cases h
  · split at h
    · rename_i hcond
      have he := Option.some_inj.mp h
      rw [← he]
      exact jsTrim_ne_empty_length _ hcond
    · cases h

/-- C8: every listing returned by the field extractor - through the
container-match path or the heading-scan fallback - has a companyName whose
trimmed length is positive: a listing whose name is empty after trimming is
discarded before leaving the extractor. -/
theorem extracted_company_name_nonempty (cfg : ScrapingConfigM) (doc : PageDoc)
    (pageUrl : String) (c : ExtractedCompany)
    (h : c ∈ extractCompaniesFromHTML cfg doc pageUrl) :
    0 < (jsTrim c.companyName).length := by
  unfold extractCompaniesFromHTML at h
  split at h
  · unfold extractIndividualElements at h
    exact extractIndAux_name doc pageUrl headingNameSelectors c (List.take_subset 50 _ h)
  · rw [List.mem_filterMap] at h
    obtain ⟨pr, hmem, hf⟩ := h
    exact extractCompanyFromElement_name cfg pageUrl pr.1 pr.2 c hf

/-- The single listing `extractCompaniesFromHTML` produces from
`docLoosePhone` under `cfgLoose`. -/
def compEvil : ExtractedCompany :=
  { companyName := "EvilCo", profileLink := none, externalWebsite := none, industry := none,
    location := none, contactPerson := none, email := none, phone := some "((((((((((",
    extractedFrom := "https://dir.example.com/list",
    deepExtractionStatus := some DeepStatus.pending, contactPageUrl := none }

/-- C8 witness: the theorem applied to a concrete extraction. -/
theorem extracted_company_name_nonempty_witness : 0 < (jsTrim compEvil.companyName).length :=
  extracted_company_name_nonempty cfgLoose docLoosePhone "https://dir.example.com/list"
    compEvil (by decide)

/-! ## Claim C5 -/

/-- In an event-list suffix produced by one phase, a `stopObserved` event can
only be its very last event. -/
def stopLast (Δ : List REvent) : Prop :=
  REvent.stopObserved ∈ Δ →
    ∃ Δ0, Δ = Δ0 ++ [REvent.stopObserved] ∧ REvent.stopObserved ∉ Δ0

theorem stopLast_nil : stopLast [] := fun h => absurd h (List.not_mem_nil _)

theorem stopLast_single : stopLast [REvent.stopObserved] :=
  fun _ => ⟨[], rfl, List.not_mem_nil _⟩

theorem stopLast_append (a b : List REvent) (ha : REvent.stopObserved ∉ a)
    (hb : stopLast b) : stopLast (a ++ b) := by
  intro h
  rcases List.mem_append.mp h with hm | hm
  · exact absurd hm ha
  · obtain ⟨Δ0, hΔ, hΔn⟩ := hb hm
    refine ⟨a ++ Δ0, by rw [hΔ, List.append_assoc], ?_⟩
    intro hmem
    rcases List.mem_append.mp hmem with hm2 | hm2
    · exact ha hm2
    · exact hΔn hm2

theorem stopSeen_mono (sa : Option Nat) (k1 k2 : Nat) (hk : k1 ≤ k2)
    (h : stopSeen sa k1 = true) : stopSeen sa k2 = true := by
  cases sa with
  | none => simp [stopSeen] at h
  | some j =>
    simp [stopSeen] at h ⊢
    omega

theorem phase1Step_no_stop (env : RunEnv) (page : Nat) :
    REvent.stopObserved ∉ (phase1Step env page).1 ∧
      ∀ ls, REvent.emitLeads ls ∉ (phase1Step env page).1 := by
  unfold phase1Step
  split
  · simp
  · split
    · simp
    · split <;> simp

theorem phase1_spec (env : RunEnv) :
    ∀ (n k : Nat) (comps : List ExtractedCompany) (evs : List REvent),
      ∃ Γ Δ,
        (phase1 env n k comps evs).2.1 = comps ++ Γ ∧
        (phase1 env n k comps evs).2.2 = evs ++ Δ ∧
        stopLast Δ ∧
        (∀ ls, REvent.emitLeads ls ∉ Δ) ∧
        (REvent.stopObserved ∈ Δ → stopSeen env.stopAt (phase1 env n k comps evs).1 = true) := by
  intro n
  induction n with
  | zero =>
    intro k comps evs
    exact ⟨[], [], by simp [phase1], by simp [phase1], stopLast_nil,
      fun ls h => absurd h (List.not_mem_nil _),
      fun h => absurd h (List.not_mem_nil _)⟩
  | succ n ih =>
    intro k comps evs
    by_cases hs : stopSeen env.stopAt k = true
    · refine ⟨[], [REvent.stopObserved], by simp [phase1, hs], by simp [phase1, hs],
        stopLast_single, ?_, ?_⟩
      · intro ls h
        simp at h
      · intro _
        have hk1 : (phase1 env (n + 1) k comps evs).1 = k + 1 := by simp [phase1, hs]
        rw [hk1]
        exact stopSeen_mono env.stopAt k (k + 1) (by omega) hs
    · have hs0 : stopSeen env.stopAt k = false := Bool.eq_false_iff.mpr hs
      obtain ⟨Γ, Δ, h1, h2, h3, h4, h5⟩ :=
        ih (k + 1) (comps ++ (phase1Step env (env.totalPages - n)).2)
          (evs ++ (phase1Step env (env.totalPages - n)).1)
      have heq : phase1 env (n + 1) k comps evs =
          phase1 env n (k + 1) (comps ++ (phase1Step env (env.totalPages - n)).2)
            (evs ++ (phase1Step env (env.totalPages - n)).1) := by
        simp [phase1, hs0]
      refine ⟨(phase1Step env (env.totalPages - n)).2 ++ Γ,
        (phase1Step env (env.totalPages - n)).1 ++ Δ, ?_, ?_, ?_, ?_, ?_⟩
      · rw [heq, h1, List.append_assoc]
      · rw [heq, h2, List.append_assoc]
      · exact stopLast_append _ _ (phase1Step_no_stop env _).1 h3
      · intro ls hmem
        rcases List.mem_append.mp hmem with hm | hm
        · exact (phase1Step_no_stop env _).2 ls hm
        · exact h4 ls hm
      · intro hmem
        rw [heq]
        rcases List.mem_append.mp hmem with hm | hm
        · exact absurd hm (phase1Step_no_stop env _).1
        · exact h5 hm

theorem phase2Step_no_stop (urls : List String) (p : Prop) [Decidable p]
    (ls : List CompanyLead) :
    REvent.stopObserved ∉
      urls.map REvent.net ++ (if p then [REvent.emitLeads ls] else []) := by
  intro h
  rcases List.mem_append.mp h with hm | hm
  · rcases List.mem_map.mp hm with ⟨u, _, hu⟩
    cases hu
  · split at hm <;> simp at hm

theorem phase2_spec (env : RunEnv) :
    ∀ (cs : List ExtractedCompany) (i k : Nat) (leads : List CompanyLead) (evs : List REvent),
      ∃ Λ Δ,
        (phase2 env cs i k leads evs).1 = leads ++ Λ ∧
        (phase2 env cs i k leads evs).2 = evs ++ Δ ∧
        stopLast Δ := by
  intro cs
  induction cs with
  | nil =>
    intro i k leads evs
    exact ⟨[], [], by simp [phase2], by simp [phase2], stopLast_nil⟩
  | cons c rest ih =>
    intro i k leads evs
    by_cases hs : stopSeen env.stopAt k = true
    · exact ⟨[], [REvent.stopObserved], by simp [phase2, hs], by simp [phase2, hs],
        stopLast_single⟩
    · have hs0 : stopSeen env.stopAt k = false := Bool.eq_false_iff.mpr hs
      obtain ⟨Λ, Δ, h1, h2, h3⟩ :=
        ih (i + 1) (k + 1)
          (leads ++ [convertExtractedToLead (performDeepExtractionT env.world c).1])
          (evs ++ (performDeepExtractionT env.world c).2.map REvent.net ++
            (if (i + 1) % 10 = 0 then
              [REvent.emitLeads
                (leads ++ [convertExtractedToLead (performDeepExtractionT env.world c).1])]
            else []))
      have heq : phase2 env (c :: rest) i k leads evs =
          phase2 env rest (i + 1) (k + 1)
            (leads ++ [convertExtractedToLead (performDeepExtractionT env.world c).1])
            (evs ++ (performDeepExtractionT env.world c).2.map REvent.net ++
              (if (i + 1) % 10 = 0 then
                [REvent.emitLeads
                  (leads ++ [convertExtractedToLead (performDeepExtractionT env.world c).1])]
              else [])) := by
        simp [phase2, hs0]
      refine ⟨[convertExtractedToLead (performDeepExtractionT env.world c).1] ++ Λ,
        ((performDeepExtractionT env.world c).2.map REvent.net ++
          (if (i + 1) % 10 = 0 then
            [REvent.emitLeads
              (leads ++ [convertExtractedToLead (performDeepExtractionT env.world c).1])]
          else [])) ++ Δ, ?_, ?_, ?_⟩
      · rw [heq, h1, List.append_assoc]
      · rw [heq, h2]
        rw [List.append_assoc, List.append_assoc, List.append_assoc]
      · exact stopLast_append _ _ (phase2Step_no_stop _ _ _) h3


theorem dropWhile_ne_stop_of_not_mem :
    ∀ evs : List REvent, REvent.stopObserved ∉ evs →
      evs.dropWhile (fun e => e ≠ REvent.stopObserved) = [] := by
  intro evs
  induction evs with
  | nil => intro _; rfl
  | cons a as ih =>
    intro h
    have ha : a ≠ REvent.stopObserved := fun he => h (he ▸ List.mem_cons_self a as)
    rw [List.dropWhile_cons_of_pos (by simpa using ha)]
    exact ih (fun hm => h (List.mem_cons_of_mem a hm))

theorem afterFirstStop_of_not_mem (evs : List REvent) (h : REvent.stopObserved ∉ evs) :
    afterFirstStop evs = [] := by
  unfold afterFirstStop
  rw [dropWhile_ne_stop_of_not_mem evs h]
  rfl

theorem afterFirstStop_append :
    ∀ pre : List REvent, REvent.stopObserved ∉ pre →
      ∀ post, afterFirstStop (pre ++ REvent.stopObserved :: post) = post := by
  intro pre
  induction pre with
  | nil =>
    intro _ post
    unfold afterFirstStop
    rw [List.nil_append, List.dropWhile_cons_of_neg (by simp)]
    rfl
  | cons a pres ih =>
    intro h post
    have ha : a ≠ REvent.stopObserved := fun he => h (he ▸ List.mem_cons_self a pres)
    have hrec := ih (fun hm => h (List.mem_cons_of_mem a hm)) post
    unfold afterFirstStop at hrec ⊢
    rw [List.cons_append, List.dropWhile_cons_of_pos (by simpa using ha)]
    exact hrec

/-- C5: whenever a stop request is observed mid-run, no network call occurs
after the observation, and the only consumer emission after it is the final
flush carrying exactly the leads collected up to the stop (no flush happens
when nothing was collected). -/
theorem stop_flush_and_no_network (env : RunEnv) :
    (∀ u : String, REvent.net u ∉ afterFirstStop (runScraper env).2) ∧
    (REvent.stopObserved ∈ (runScraper env).2 →
      emitsOf (afterFirstStop (runScraper env).2) =
        if (runScraper env).1.isEmpty then [] else [(runScraper env).1]) := by
  obtain ⟨Γ1, Δ1, hP1c, hP1e, hP1last, hP1noemit, hP1stop⟩ :=
    phase1_spec env env.totalPages 0 [] []
  rw [List.nil_append] at hP1c hP1e
  by_cases hcomps : (phase1 env env.totalPages 0 [] []).2.1.isEmpty = true
  · -- phase 1 produced nothing: the run returns no leads and the phase-1 trace
    have hrun : runScraper env = ([], (phase1 env env.totalPages 0 [] []).2.2) := by
      unfold runScraper
      rw [if_pos hcomps]
    have hrun1 : (runScraper env).1 = [] := by rw [hrun]
    have hrun2 : (runScraper env).2 = (phase1 env env.totalPages 0 [] []).2.2 := by rw [hrun]
    have hafter : afterFirstStop (runScraper env).2 = [] := by
      rw [hrun2, hP1e]
      by_cases hst : REvent.stopObserved ∈ Δ1
      · obtain ⟨Δ0, hΔ, hΔn⟩ := hP1last hst
        rw [hΔ]
        have := afterFirstStop_append Δ0 hΔn []
        simpa using this
      · exact afterFirstStop_of_not_mem Δ1 hst
    constructor
    · intro u
      rw [hafter]
      exact List.not_mem_nil _
    · intro _
      rw [hafter, hrun1]
      rfl
  · have hcompsf : (phase1 env env.totalPages 0 [] []).2.1.isEmpty = false :=
      Bool.eq_false_iff.mpr hcomps
    by_cases hsk : stopSeen env.stopAt (phase1 env env.totalPages 0 [] []).1 = true
    · -- stop observed at the phase-2 guard (line 168): no leads, one more stop event
      have hrun : runScraper env =
          ([], (phase1 env env.totalPages 0 [] []).2.2 ++ [REvent.stopObserved]) := by
        unfold runScraper
        rw [if_neg (by simp [hcompsf]), if_pos hsk]
      have hrun1 : (runScraper env).1 = [] := by rw [hrun]
      have hrun2 : (runScraper env).2 =
          (phase1 env env.totalPages 0 [] []).2.2 ++ [REvent.stopObserved] := by rw [hrun]
      have hafter : afterFirstStop (runScraper env).2 = [] ∨
          afterFirstStop (runScraper env).2 = [REvent.stopObserved] := by
        rw [hrun2, hP1e]
        by_cases hst : REvent.stopObserved ∈ Δ1
        · right
          obtain ⟨Δ0, hΔ, hΔn⟩ := hP1last hst
          rw [hΔ, List.append_assoc]
          have := afterFirstStop_append Δ0 hΔn ([] ++ [REvent.stopObserved])
          simpa using this
        · left
          have := afterFirstStop_append Δ1 hst []
          simpa using this
      constructor
      · intro u
        rcases hafter with ha | ha <;> rw [ha] <;> simp
      · intro _
        rw [hrun1]
        rcases hafter with ha | ha <;> simp [ha, emitsOf]
    · -- phase 2 ran
      have hskf : stopSeen env.stopAt (phase1 env env.totalPages 0 [] []).1 = false :=
        Bool.eq_false_iff.mpr hsk
      have hst1 : REvent.stopObserved ∉ Δ1 := fun hst => hsk (hP1stop hst)
      obtain ⟨Λ, Δ2, hQ1, hQ2, hQlast⟩ :=
        phase2_spec env (phase1 env env.totalPages 0 [] []).2.1 0
          ((phase1 env env.totalPages 0 [] []).1 + 1) []
          (phase1 env env.totalPages 0 [] []).2.2
      rw [List.nil_append] at hQ1
      by_cases hld : (phase2 env (phase1 env env.totalPages 0 [] []).2.1 0
          ((phase1 env env.totalPages 0 [] []).1 + 1) []
          (phase1 env env.totalPages 0 [] []).2.2).1.isEmpty = true
      · -- stop before any lead was processed: no final flush
        have hrun : runScraper env =
            phase2 env (phase1 env env.totalPages 0 [] []).2.1 0
              ((phase1 env env.totalPages 0 [] []).1 + 1) []
              (phase1 env env.totalPages 0 [] []).2.2 := by
          unfold runScraper
          rw [if_neg (by simp [hcompsf]), if_neg (by simp [hskf]), if_pos hld]
        have hrun1 : (runScraper env).1 = [] := by
          rw [hrun]
          exact List.isEmpty_iff.mp hld
        have hrun2 : (runScraper env).2 =
            (phase1 env env.totalPages 0 [] []).2.2 ++ Δ2 := by rw [hrun, hQ2]
        have hafter : afterFirstStop (runScraper env).2 = [] := by
          rw [hrun2, hP1e]
          by_cases hst : REvent.stopObserved ∈ Δ2
          · obtain ⟨Δ0, hΔ, hΔn⟩ := hQlast hst
            rw [hΔ, ← List.append_assoc]
            have hnm : REvent.stopObserved ∉ Δ1 ++ Δ0 := by
              intro hm
              rcases List.mem_append.mp hm with hm | hm
              · exact hst1 hm
              · exact hΔn hm
            have := afterFirstStop_append (Δ1 ++ Δ0) hnm []
            simpa using this
          · apply afterFirstStop_of_not_mem
            intro hm
            rcases List.mem_append.mp hm with hm | hm
            · exact hst1 hm
            · exact hst hm
        constructor
        · intro u
          rw [hafter]
          exact List.not_mem_nil _
        · intro _
          rw [hafter, hrun1]
          rfl
      · -- leads were collected: the final flush carries them all
        have hldf : (phase2 env (phase1 env env.totalPages 0 [] []).2.1 0
            ((phase1 env env.totalPages 0 [] []).1 + 1) []
            (phase1 env env.totalPages 0 [] []).2.2).1.isEmpty = false :=
          Bool.eq_false_iff.mpr hld
        have hrun : runScraper env =
            ((phase2 env (phase1 env env.totalPages 0 [] []).2.1 0
                ((phase1 env env.totalPages 0 [] []).1 + 1) []
                (phase1 env env.totalPages 0 [] []).2.2).1,
             (phase2 env (phase1 env env.totalPages 0 [] []).2.1 0
                ((phase1 env env.totalPages 0 [] []).1 + 1) []
                (phase1 env env.totalPages 0 [] []).2.2).2 ++
               [REvent.emitLeads
                 (phase2 env (phase1 env env.totalPages 0 [] []).2.1 0
                   ((phase1 env env.totalPages 0 [] []).1 + 1) []
                   (phase1 env env.totalPages 0 [] []).2.2).1]) := by
          unfold runScraper
          rw [if_neg (by simp [hcompsf]), if_neg (by simp [hskf]), if_neg (by simp [hldf])]
        have hrun1 : (runScraper env).1 =
            (phase2 env (phase1 env env.totalPages 0 [] []).2.1 0
              ((phase1 env env.totalPages 0 [] []).1 + 1) []
              (phase1 env env.totalPages 0 [] []).2.2).1 := by rw [hrun]
        have hrun2 : (runScraper env).2 =
            ((phase1 env env.totalPages 0 [] []).2.2 ++ Δ2) ++
              [REvent.emitLeads (runScraper env).1] := by
          rw [hrun]
          rw [hQ2]
        by_cases hst : REvent.stopObserved ∈ Δ2
        · obtain ⟨Δ0, hΔ, hΔn⟩ := hQlast hst
          have hnm : REvent.stopObserved ∉ Δ1 ++ Δ0 := by
            intro hm
            rcases List.mem_append.mp hm with hm | hm
            · exact hst1 hm
            · exact hΔn hm
          have hafter : afterFirstStop (runScraper env).2 =
              [REvent.emitLeads (runScraper env).1] := by
            rw [hrun2, hP1e, hΔ]
            rw [show (Δ1 ++ (Δ0 ++ [REvent.stopObserved])) ++
                  [REvent.emitLeads (runScraper env).1] =
                (Δ1 ++ Δ0) ++
                  (REvent.stopObserved :: [REvent.emitLeads (runScraper env).1]) by
              simp [List.append_assoc]]
            exact afterFirstStop_append (Δ1 ++ Δ0) hnm _
          constructor
          · intro u
            rw [hafter]
            simp
          · intro _
            rw [hafter, hrun1, hldf]
            simp [emitsOf]
        · have hnost : REvent.stopObserved ∉ (runScraper env).2 := by
            rw [hrun2, hP1e]
            intro hm
            rcases List.mem_append.mp hm with hm | hm
            · rcases List.mem_append.mp hm with hm | hm
              · exact hst1 hm
              · exact hst hm
            · simp at hm
          constructor
          · intro u
            rw [afterFirstStop_of_not_mem _ hnost]
            exact List.not_mem_nil _
          · intro hmem
            exact absurd hmem hnost
